import Mathlib

set_option maxHeartbeats 1000000

/-!
Shallow embedding of `conference_room_server.py` (repository
`damnordicus/conference-room-display`).

Modelling conventions:
* Python strings are modelled as `List Char`.
* `datetime` values are modelled by `PyDateTime`: the wall-clock reading in
  microseconds since the civil epoch 1970-01-01 00:00:00 (of the wall-clock
  fields themselves), together with `tz`, the optional UTC offset in
  microseconds (`none` = timezone-naive).
* The ambient machine clock and the process-local timezone enter as explicit
  parameters (`nowInstant`, `localOff`), so the stateful routines become pure
  state-transition functions.
* Exceptions never escape the modelled routines (the source wraps each path in
  `try/except`); fallible steps are `Option`-valued and totality of the Lean
  definitions reflects the no-raise behaviour.
-/

/-- Convert a Lean string literal to the `List Char` model of a Python string. -/
def cs (s : String) : List Char := s.data

/-- The replacement text `+00:00` used for a trailing `Z`. -/
def plus0000 : List Char := cs "+00:00"

/-- Python `s.replace(c, repl)` for a single-character pattern `c`:
replaces every occurrence. -/
def pyReplaceChar (c : Char) (repl : List Char) : List Char → List Char
  | [] => []
  | x :: xs =>
    if x = c then repl ++ pyReplaceChar c repl xs else x :: pyReplaceChar c repl xs

/-- Split at the first occurrence of `c`: `some (before, after)`, or `none`
when `c` does not occur (models the head of Python `s.split(c)`). -/
def splitFirst (c : Char) : List Char → Option (List Char × List Char)
  | [] => none
  | x :: xs =>
    if x = c then some ([], xs)
    else (splitFirst c xs).map (fun p => (x :: p.1, p.2))

/-- Split at the last occurrence of `c`: `some (before, after)`, or `none`
when `c` does not occur (models Python `s.rsplit(c, 1)` unpacked into two
parts; the `none` case corresponds to the unpacking `ValueError`). -/
def rsplitLast (c : Char) : List Char → Option (List Char × List Char)
  | [] => none
  | x :: xs =>
    match rsplitLast c xs with
    | some p => some (x :: p.1, p.2)
    | none => if x = c then some ([], xs) else none

/-- Python `s.ljust(n, fill)`: pad on the right up to length `n`. -/
def pyLjust (n : Nat) (fill : Char) (xs : List Char) : List Char :=
  xs ++ List.replicate (n - xs.length) fill

/-- Python `s[-n:]`: the last `n` characters (the whole string when shorter). -/
def lastN (n : Nat) (xs : List Char) : List Char := xs.drop (xs.length - n)

/-- The decimal digit character for `n < 10` (a fixed table). -/
def dchar : Nat → Char
  | 0 => '0' | 1 => '1' | 2 => '2' | 3 => '3' | 4 => '4'
  | 5 => '5' | 6 => '6' | 7 => '7' | 8 => '8' | _ => '9'

/-- Numeric value of a digit character. -/
def digitVal (c : Char) : Nat := c.toNat - 48

/-- Value of a digit string read in base 10 (models `int(s)` on digit input). -/
def digitsVal (ds : List Char) : Nat := ds.foldl (fun a c => a * 10 + digitVal c) 0

/-- Read two leading decimal digits (models `int(tstr[pos:pos+2])` with the
digit check of CPython's parser). -/
def parse2 : List Char → Option (Nat × List Char)
  | c1 :: c2 :: r =>
    if c1.isDigit ∧ c2.isDigit then some (digitVal c1 * 10 + digitVal c2, r) else none
  | _ => none

/-- Gregorian leap-year test. -/
def isLeap (y : Nat) : Bool := y % 4 = 0 ∧ (y % 100 ≠ 0 ∨ y % 400 = 0)

/-- Number of days in a month (as validated by `datetime(...)`). -/
def daysInMonth (y mo : Nat) : Nat :=
  if mo = 2 then (if isLeap y then 29 else 28)
  else if mo = 4 ∨ mo = 6 ∨ mo = 9 ∨ mo = 11 then 30
  else 31

/-- Days from civil date to 1970-01-01 (standard days-from-civil algorithm,
for years ≥ 1 as enforced by `datetime`). -/
def daysFromCivil (y mo d : Nat) : Int :=
  let y' := y - (if mo ≤ 2 then 1 else 0)
  let era := y' / 400
  let yoe := y' % 400
  let mp := if mo > 2 then mo - 3 else mo + 9
  let doy := (153 * mp + 2) / 5 + d - 1
  let doe := yoe * 365 + yoe / 4 - yoe / 100 + doy
  ((era * 146097 + doe : Nat) : Int) - 719468

/-- Civil date from days since 1970-01-01 (inverse algorithm; used for
rendering wall-clock fields of dates in the supported year range). -/
def civilFromDays (z : Int) : Nat × Nat × Nat :=
  let z' := z + 719468
  let era := z'.fdiv 146097
  let doe := (z' - era * 146097).toNat
  let yoe := (doe - doe / 1460 + doe / 36524 - doe / 146096) / 365
  let y0 := (era * 400 + yoe).toNat
  let doy := doe - (365 * yoe + yoe / 4 - yoe / 100)
  let mp := (5 * doy + 2) / 153
  let d := doy - (153 * mp + 2) / 5 + 1
  let mo := if mp < 10 then mp + 3 else mp - 9
  (if mo ≤ 2 then y0 + 1 else y0, mo, d)

/-- Microseconds since the civil epoch for given wall-clock fields. -/
def toMicros (y mo d h mi s us : Nat) : Int :=
  daysFromCivil y mo d * 86400000000 + (((h * 3600 + mi * 60 + s) * 1000000 + us : Nat) : Int)

/-- Model of a Python `datetime`: wall-clock microseconds since the civil
epoch together with an optional UTC offset in microseconds (`none` = naive). -/
structure PyDateTime where
  wall : Int
  tz : Option Int
deriving DecidableEq

/-- The comparison key Python uses: aware datetimes compare by UTC instant
(wall minus offset); naive ones by their wall-clock value. -/
def instantOf (d : PyDateTime) : Int :=
  match d.tz with
  | some off => d.wall - off
  | none => d.wall

/-- Python `dt.astimezone()` with process-local offset `localOff`:
an aware value is converted (same instant, local wall clock); a naive value is
presumed to already read local time and is tagged with the local offset. -/
def astimezone (localOff : Int) (d : PyDateTime) : PyDateTime :=
  match d.tz with
  | some off => { wall := d.wall - off + localOff, tz := some localOff }
  | none => { wall := d.wall, tz := some localOff }

/-- The local calendar day (as day count since the epoch) read off a local
wall-clock value. -/
def localDate (d : PyDateTime) : Int := d.wall.fdiv 86400000000

/-- CPython's `_parse_hh_mm_ss_ff` (pre-3.11 `datetime.py`): parses
`HH[:MM[:SS[.fff[fff]]]]`, the whole string; the fractional part must run to
the end of the string and contain exactly 3 or 6 digits. -/
def parse_hh_mm_ss_ff (tstr : List Char) : Option (Nat × Nat × Nat × Nat) := do
  let (h, r1) ← parse2 tstr
  match r1 with
  | [] => some (h, 0, 0, 0)
  | ':' :: r2 => do
    let (mi, r3) ← parse2 r2
    match r3 with
    | [] => some (h, mi, 0, 0)
    | ':' :: r4 => do
      let (s, r5) ← parse2 r4
      match r5 with
      | [] => some (h, mi, s, 0)
      | '.' :: r6 =>
        if r6.length = 3 ∧ r6.all Char.isDigit then some (h, mi, s, digitsVal r6 * 1000)
        else if r6.length = 6 ∧ r6.all Char.isDigit then some (h, mi, s, digitsVal r6)
        else none
      | _ => none
    | _ => none
  | _ => none

/-- CPython's timezone-marker search in `_parse_isoformat_time`:
`tstr.find('-') + 1 or tstr.find('+') + 1` — the first `'-'` wins, else the
first `'+'`; returns the time part, the sign, and the offset part. -/
def findTzSign (tstr : List Char) : Option (List Char × Char × List Char) :=
  match splitFirst '-' tstr with
  | some p => some (p.1, '-', p.2)
  | none =>
    match splitFirst '+' tstr with
    | some p => some (p.1, '+', p.2)
    | none => none

/-- CPython's `_parse_isoformat_time` (pre-3.11): time components plus an
optional UTC offset in microseconds.  A `±HH:MM[:SS[.ffffff]]` offset string
must have length 5, 8 or 15; an all-zero offset becomes UTC regardless of
sign. -/
def parse_isoformat_time (tstr : List Char) : Option (Nat × Nat × Nat × Nat × Option Int) := do
  if tstr.length < 2 then none
  else
    match findTzSign tstr with
    | none => do
      let (h, mi, s, us) ← parse_hh_mm_ss_ff tstr
      some (h, mi, s, us, none)
    | some (timestr, sign, tzstr) => do
      let (h, mi, s, us) ← parse_hh_mm_ss_ff timestr
      if tzstr.length = 5 ∨ tzstr.length = 8 ∨ tzstr.length = 15 then do
        let (th, tm, ts, tus) ← parse_hh_mm_ss_ff tzstr
        let mag : Int := (((th * 3600 + tm * 60 + ts) * 1000000 + tus : Nat) : Int)
        let off : Int :=
          if th = 0 ∧ tm = 0 ∧ ts = 0 ∧ tus = 0 then 0
          else if sign = '-' then -mag else mag
        some (h, mi, s, us, some off)
      else none

/-- Model of pre-3.11 `datetime.fromisoformat`: an exact `YYYY-MM-DD` date,
then optionally one (arbitrary, ignored) separator character and a time per
`parse_isoformat_time`.  The final checks mirror the `datetime(...)` and
`timezone(...)` constructors: field ranges, and a UTC offset strictly within
24 hours.  (3.11's extended ISO-8601 support — lone `Z`, arbitrary fraction
lengths — does not exist here, which is exactly why the source pre-processes
its input.) -/
def fromisoformat (dtstr : List Char) : Option PyDateTime :=
  match dtstr with
  | c1 :: c2 :: c3 :: c4 :: '-' :: c5 :: c6 :: '-' :: c7 :: c8 :: rest =>
    if c1.isDigit ∧ c2.isDigit ∧ c3.isDigit ∧ c4.isDigit ∧ c5.isDigit ∧ c6.isDigit ∧
        c7.isDigit ∧ c8.isDigit then
      let y := digitsVal [c1, c2, c3, c4]
      let mo := digitVal c5 * 10 + digitVal c6
      let d := digitVal c7 * 10 + digitVal c8
      let timeComps : Option (Nat × Nat × Nat × Nat × Option Int) :=
        match rest with
        | [] => some (0, 0, 0, 0, none)
        | _sep :: tstr => parse_isoformat_time tstr
      match timeComps with
      | none => none
      | some (h, mi, s, us, off) =>
        if 1 ≤ y ∧ 1 ≤ mo ∧ mo ≤ 12 ∧ 1 ≤ d ∧ d ≤ daysInMonth y mo ∧
            h ≤ 23 ∧ mi ≤ 59 ∧ s ≤ 59 ∧ (off.getD 0).natAbs < 86400000000 then
          some ⟨toMicros y mo d h mi s us, off⟩
        else none
    else none
  | _ => none

/-- The `try` body of `parse_graph_datetime` (source lines 65-79): replace
every `'Z'` by `+00:00`; when the result contains both `'.'` and `'+'`,
split off the offset at the last `'+'`, truncate/right-pad the fractional
part to 6 digits, reassemble; then `fromisoformat`.  A `none` is the raised
exception caught by the `except` (including the `ValueError` from unpacking
`date_part.split('.')` into two names when it yields three or more parts). -/
def graph_primary (datetime_str : List Char) : Option PyDateTime :=
  let clean_str := pyReplaceChar 'Z' plus0000 datetime_str
  if '.' ∈ clean_str ∧ '+' ∈ clean_str then
    match rsplitLast '+' clean_str with
    | some (date_part, tz_part) =>
      if '.' ∈ date_part then
        match splitFirst '.' date_part with
        | some (main_part, microsec_part) =>
          if '.' ∈ microsec_part then none
          else
            let microsec_part := pyLjust 6 '0' (microsec_part.take 6)
            fromisoformat (main_part ++ '.' :: microsec_part ++ '+' :: tz_part)
        | none => none
      else fromisoformat clean_str
    | none => none
  else fromisoformat clean_str

/-- The recovery path of `parse_graph_datetime` (source lines 82-94): when the
original string contains a `'.'`, drop everything from the first `'.'` on,
map a trailing `'Z'` to `+00:00`, or append `+00:00` when no `'+'` occurs and
no `'-'` occurs in the last six characters; then `fromisoformat`.  Without a
`'.'`, or when that parse also fails, the result is `none`. -/
def graph_recovery (datetime_str : List Char) : Option PyDateTime :=
  if '.' ∈ datetime_str then
    let base_str :=
      match splitFirst '.' datetime_str with
      | some p => p.1
      | none => datetime_str
    let base_str :=
      if base_str.getLast? = some 'Z' then base_str.dropLast ++ plus0000
      else if ¬('+' ∈ base_str ∨ '-' ∈ lastN 6 base_str) then base_str ++ plus0000
      else base_str
    fromisoformat base_str
  else none

/-- `parse_graph_datetime` (source lines 60-94): empty input gives `None`;
otherwise the primary parse, falling back to the recovery parse. -/
def parse_graph_datetime (datetime_str : List Char) : Option PyDateTime :=
  if datetime_str = [] then none
  else
    match graph_primary datetime_str with
    | some dt => some dt
    | none => graph_recovery datetime_str

/-- The four-way operation dispatch of `compare_datetimes_safely` applied to
comparison keys; an unrecognised operation selects no branch (Python falls
through and the function returns `None`). -/
def applyOp (operation : String) (a b : Int) : Option Bool :=
  if operation = "lt" then some (decide (a < b))
  else if operation = "le" then some (decide (a ≤ b))
  else if operation = "gt" then some (decide (b < a))
  else if operation = "ge" then some (decide (b ≤ a))
  else none

/-- `compare_datetimes_safely` (source lines 103-134).  When both operands
have the same awareness the first operation chain compares them directly
(Python compares aware values by instant, naive ones by wall clock — both are
`instantOf`).  Otherwise — or when the first chain selected no branch —
execution continues: the naive operand adopts the other's offset via
`replace(tzinfo=...)` (wall clock kept), and the second chain compares.
Falling off the end is `none` (Python's implicit `None`); the surrounding
`try/except` cannot fire in this total model. -/
def compare_datetimes_safely (dt1 dt2 : PyDateTime) (operation : String) : Option Bool :=
  let direct :=
    if dt1.tz.isNone = dt2.tz.isNone then applyOp operation (instantOf dt1) (instantOf dt2)
    else none
  match direct with
  | some b => some b
  | none =>
    let dt1' := if dt1.tz.isNone ∧ dt2.tz.isSome then { dt1 with tz := dt2.tz } else dt1
    let dt2' := if dt2.tz.isNone ∧ dt1.tz.isSome then { dt2 with tz := dt1.tz } else dt2
    applyOp operation (instantOf dt1') (instantOf dt2')

/-- Two-digit zero-padded decimal rendering (`%02d` for values below 100). -/
def two (n : Nat) : List Char := [dchar (n / 10), dchar (n % 10)]

/-- Four-digit zero-padded decimal rendering (`%Y` for 1 ≤ year ≤ 9999). -/
def four (n : Nat) : List Char :=
  [dchar (n / 1000), dchar (n / 100 % 10), dchar (n / 10 % 10), dchar (n % 10)]

/-- Decimal rendering of a natural number (`%d`). -/
def natStr (n : Nat) : List Char := Nat.toDigits 10 n

/-- `%06d`: six-digit zero-padded decimal rendering. -/
def six (n : Nat) : List Char :=
  List.replicate (6 - (natStr n).length) '0' ++ natStr n

/-- `strftime('%I:%M %p')` on a wall-clock value: zero-padded 12-hour clock
with AM/PM. -/
def fmtTime12 (d : PyDateTime) : List Char :=
  let tod := (d.wall.fmod 86400000000).toNat
  let h := tod / 3600000000
  let mi := tod % 3600000000 / 60000000
  two ((h + 11) % 12 + 1) ++ ':' :: two mi ++ ' ' :: (if h < 12 then cs "AM" else cs "PM")

/-- `str(timedelta)` on a span of `x` microseconds: `H:MM:SS`, with a
`D day(s), ` prefix when the floor-normalised day count is nonzero and a
`.ffffff` suffix when the microsecond remainder is nonzero. -/
def strTimedelta (x : Int) : List Char :=
  let days := x.fdiv 86400000000
  let rem := (x - days * 86400000000).toNat
  let hh := rem / 3600000000
  let mm := rem % 3600000000 / 60000000
  let ss := rem % 60000000 / 1000000
  let us := rem % 1000000
  let base := natStr hh ++ ':' :: two mm ++ ':' :: two ss ++
    (if us = 0 then [] else '.' :: six us)
  if days = 0 then base
  else (if days < 0 then '-' :: natStr days.natAbs else natStr days.natAbs) ++
    cs " day" ++ (if days.natAbs = 1 then [] else ['s']) ++ cs ", " ++ base

/-- `strftime('%Y-%m-%dT%H:%M:%S.%fZ')` on a (naive) wall-clock value: the
wall fields rendered with a literal `Z` appended — no conversion happens. -/
def strftimeQueryZ (wall : Int) : List Char :=
  let day := wall.fdiv 86400000000
  let tod := (wall - day * 86400000000).toNat
  let ymd := civilFromDays day
  let h := tod / 3600000000
  let mi := tod % 3600000000 / 60000000
  let s := tod % 60000000 / 1000000
  let us := tod % 1000000
  four ymd.1 ++ '-' :: two ymd.2.1 ++ '-' :: two ymd.2.2 ++ 'T' :: two h ++ ':' :: two mi ++
    ':' :: two s ++ '.' :: six us ++ ['Z']

/-- `get_today_range` (source lines 96-101): `datetime.now().astimezone()`
(an aware local reading of the true instant `nowInstant`), floored to local
midnight, and that plus one day — both offset-aware local values. -/
def get_today_range (localOff nowInstant : Int) : PyDateTime × PyDateTime :=
  let today_wall := nowInstant + localOff
  let start_wall := today_wall - today_wall.fmod 86400000000
  (⟨start_wall, some localOff⟩, ⟨start_wall + 86400000000, some localOff⟩)

/-- The query-bound construction of `fetch_bookings` (source lines 146-153):
`datetime.now()` (naive local wall clock), floored to midnight, plus one day,
each rendered by `strftime('%Y-%m-%dT%H:%M:%S.%fZ')`. -/
def fetch_window_strings (localOff nowInstant : Int) : List Char × List Char :=
  let today_wall := nowInstant + localOff
  let start_wall := today_wall - today_wall.fmod 86400000000
  let end_wall := start_wall + 86400000000
  (strftimeQueryZ start_wall, strftimeQueryZ end_wall)

/-- A raw timestamp field of a Graph appointment record: the API may nest the
string as `{'dateTime': s}`, return it bare, or omit it; extraction
(source lines 183-195) yields the empty string in the missing case. -/
inductive TsField where
  | nestedDateTime (s : List Char)
  | bare (s : List Char)
  | missing
deriving DecidableEq

/-- The extraction of source lines 187-195 applied to one field. -/
def TsField.extract : TsField → List Char
  | .nestedDateTime s => s
  | .bare s => s
  | .missing => []

/-- A raw appointment record as consumed by the selection loops. -/
structure Appointment where
  startDateTime : TsField
  endDateTime : TsField
  customerName : Option (List Char)
  serviceName : Option (List Char)
deriving DecidableEq

/-- A value in the published booking dict: a string or a boolean. -/
inductive PyVal where
  | s (v : List Char)
  | b (v : Bool)
deriving DecidableEq

/-- The booking dict literal built in the selection loops (source lines
219-225 and 229-235): `title`, times via `strftime('%I:%M %p')`, duration via
`str(end_local - start_local)` (aware subtraction = instant difference), and
the `is_current` flag — the only difference between the two branches. -/
def bookingOf (title : List Char) (start_local end_local : PyDateTime) (is_current : Bool) :
    List (String × PyVal) :=
  [("title", PyVal.s title),
   ("start", PyVal.s (fmtTime12 start_local)),
   ("end", PyVal.s (fmtTime12 end_local)),
   ("duration", PyVal.s (strTimedelta (instantOf end_local - instantOf start_local))),
   ("is_current", PyVal.b is_current)]

/-- The appointment-selection loop (source lines 181-240, repeated verbatim at
311-368): extract both timestamp strings (skip when either is empty), parse
both (skip when either fails), convert to local time, synthesise the title
with its defaults, then classify — `now < start_local` gives the "next"
booking, else `start_local <= now <= end_local` the "current" one, each
breaking the loop; otherwise continue.  Python truthiness of the comparator's
`True/False/None` is `Option.getD false`. -/
def selectAppointment (localOff : Int) (now : PyDateTime) :
    List Appointment → Option (List (String × PyVal))
  | [] => none
  | appointment :: rest =>
    let start_time_str := appointment.startDateTime.extract
    let end_time_str := appointment.endDateTime.extract
    if start_time_str = [] ∨ end_time_str = [] then selectAppointment localOff now rest
    else
      match parse_graph_datetime start_time_str, parse_graph_datetime end_time_str with
      | some start_time, some end_time =>
        let start_local := astimezone localOff start_time
        let end_local := astimezone localOff end_time
        let customer_name := appointment.customerName.getD (cs "Unknown Customer")
        let service_name := appointment.serviceName.getD (cs "Booking")
        let title := customer_name ++ cs " - " ++ service_name
        if (compare_datetimes_safely now start_local "lt").getD false then
          some (bookingOf title start_local end_local false)
        else if (compare_datetimes_safely start_local now "le").getD false ∧
            (compare_datetimes_safely now end_local "le").getD false then
          some (bookingOf title start_local end_local true)
        else selectAppointment localOff now rest
      | _, _ => selectAppointment localOff now rest

/-- The shared module state written by the refresh routines: `current_booking`
and `last_updated` (a naive `datetime.now()` reading). -/
structure SharedState where
  current_booking : Option (List (String × PyVal))
  last_updated : Option PyDateTime
deriving DecidableEq

/-- A remote response: HTTP status code and the `value` record list of its
JSON body. -/
structure HttpResponse where
  status_code : Nat
  value : List Appointment
deriving DecidableEq

/-- The client-side day filter of `fetch_bookings_fallback` (source lines
290-307): keep a record when its start string is non-empty, parses, and its
local reading lies in today's window — `start_date <= start_dt_local` and
`start_dt_local < end_date` (end-exclusive).  Parse failures and the
per-record `except` drop the record. -/
def fallback_keep (localOff nowInstant : Int) (appointment : Appointment) : Bool :=
  let start_time_str := appointment.startDateTime.extract
  if start_time_str = [] then false
  else
    match parse_graph_datetime start_time_str with
    | some start_dt =>
      let win := get_today_range localOff nowInstant
      let start_dt_local := astimezone localOff start_dt
      (compare_datetimes_safely win.1 start_dt_local "le").getD false &&
        (compare_datetimes_safely start_dt_local win.2 "lt").getD false
    | none => false

/-- `fetch_bookings_fallback` (source lines 263-383) as a state transition:
`resp = none` models a raised transport exception (caught at line 382).  On a
200 the full list is filtered to today's window and the selection result plus
a fresh naive `last_updated` reading replace the state; any other status
leaves the state untouched. -/
def fetch_bookings_fallback (st : SharedState) (resp : Option HttpResponse)
    (localOff nowInstant : Int) : SharedState :=
  match resp with
  | none => st
  | some response =>
    if response.status_code = 200 then
      let appointments := response.value.filter (fallback_keep localOff nowInstant)
      let now : PyDateTime := ⟨nowInstant + localOff, some localOff⟩
      { current_booking := selectAppointment localOff now appointments,
        last_updated := some ⟨nowInstant + localOff, none⟩ }
    else st

/-- `fetch_bookings` (source lines 136-261) as a state transition.
`access_token`/`acquire_ok` model the credential state and the outcome of
`get_access_token()`; `resp = none` models a raised exception inside the
`try` (caught at line 260).  200 publishes the selection over the returned
records with a fresh `last_updated`; 404 — and only 404 — delegates to the
fallback; any other status only logs. -/
def fetch_bookings (st : SharedState) (access_token acquire_ok : Bool)
    (resp fallback_resp : Option HttpResponse) (localOff nowInstant : Int) : SharedState :=
  if access_token = false ∧ acquire_ok = false then st
  else
    match resp with
    | none => st
    | some response =>
      if response.status_code = 200 then
        let now : PyDateTime := ⟨nowInstant + localOff, some localOff⟩
        { current_booking := selectAppointment localOff now response.value,
          last_updated := some ⟨nowInstant + localOff, none⟩ }
      else if response.status_code = 404 then
        fetch_bookings_fallback st fallback_resp localOff nowInstant
      else st

/-! ### Helper lemmas about the safe comparator -/

theorem applyOp_isSome_of_valid (a b : Int) (op : String)
    (hop : op = "lt" ∨ op = "le" ∨ op = "gt" ∨ op = "ge") :
    (applyOp op a b).isSome = true := by
  rcases hop with h | h | h | h <;> subst h <;> simp [applyOp]

theorem compare_same_awareness (dt1 dt2 : PyDateTime) (op : String)
    (h : dt1.tz.isNone = dt2.tz.isNone) :
    compare_datetimes_safely dt1 dt2 op = applyOp op (instantOf dt1) (instantOf dt2) := by
  obtain ⟨w1, tz1⟩ := dt1
  obtain ⟨w2, tz2⟩ := dt2
  cases tz1 <;> cases tz2 <;> simp_all [compare_datetimes_safely] <;>
    rcases happ : applyOp op (instantOf ⟨w1, _⟩) (instantOf ⟨w2, _⟩) with _ | b <;> simp [happ]

theorem compare_naive_aware (dt1 dt2 : PyDateTime) (op : String) (o2 : Int)
    (h1 : dt1.tz = none) (h2 : dt2.tz = some o2) :
    compare_datetimes_safely dt1 dt2 op =
      applyOp op (instantOf ⟨dt1.wall, some o2⟩) (instantOf dt2) := by
  obtain ⟨w1, tz1⟩ := dt1
  obtain ⟨w2, tz2⟩ := dt2
  subst h1
  subst h2
  simp [compare_datetimes_safely]

theorem compare_aware_naive (dt1 dt2 : PyDateTime) (op : String) (o1 : Int)
    (h1 : dt1.tz = some o1) (h2 : dt2.tz = none) :
    compare_datetimes_safely dt1 dt2 op =
      applyOp op (instantOf dt1) (instantOf ⟨dt2.wall, some o1⟩) := by
  obtain ⟨w1, tz1⟩ := dt1
  obtain ⟨w2, tz2⟩ := dt2
  subst h1
  subst h2
  simp [compare_datetimes_safely]

/-! ### Claim theorems: comparator (C6, C10) -/

/-- Claim C6: for every pair of datetimes, each independently offset-aware or
offset-naive, and every operation among lt/le/gt/ge, the comparator returns a
boolean (totality of the embedding models absence of exceptions; the source's
`except` would return `False`); and when exactly one operand is naive the
result is the direct comparison taken after the naive operand's wall-clock
fields are reinterpreted under the other operand's offset (adoption, not
conversion). -/
theorem claimC6_compare_contract (dt1 dt2 : PyDateTime) (op : String)
    (hop : op = "lt" ∨ op = "le" ∨ op = "gt" ∨ op = "ge") :
    (compare_datetimes_safely dt1 dt2 op).isSome = true ∧
    (∀ o2, dt1.tz = none → dt2.tz = some o2 →
      compare_datetimes_safely dt1 dt2 op =
        applyOp op (instantOf ⟨dt1.wall, some o2⟩) (instantOf dt2)) ∧
    (∀ o1, dt1.tz = some o1 → dt2.tz = none →
      compare_datetimes_safely dt1 dt2 op =
        applyOp op (instantOf dt1) (instantOf ⟨dt2.wall, some o1⟩)) := by
  refine ⟨?_, fun o2 h1 h2 => compare_naive_aware dt1 dt2 op o2 h1 h2,
    fun o1 h1 h2 => compare_aware_naive dt1 dt2 op o1 h1 h2⟩
  by_cases hsame : dt1.tz.isNone = dt2.tz.isNone
  · rw [compare_same_awareness dt1 dt2 op hsame]
    exact applyOp_isSome_of_valid _ _ op hop
  · rcases h1 : dt1.tz with _ | o1 <;> rcases h2 : dt2.tz with _ | o2 <;>
      simp [h1, h2] at hsame
    · rw [compare_naive_aware dt1 dt2 op o2 h1 h2]
      exact applyOp_isSome_of_valid _ _ op hop
    · rw [compare_aware_naive dt1 dt2 op o1 h1 h2]
      exact applyOp_isSome_of_valid _ _ op hop

/-- Witness for C6 at a concrete mixed-awareness pair: naive 10:00 compared
with aware 11:00+02:00 under `lt` adopts the offset (10:00+02:00 < 11:00+02:00
is true). -/
theorem claimC6_compare_contract_witness :
    ("lt" = "lt" ∨ "lt" = "le" ∨ "lt" = "gt" ∨ "lt" = "ge") ∧
    (compare_datetimes_safely ⟨36000000000, none⟩ ⟨39600000000, some 7200000000⟩ "lt").isSome = true ∧
    compare_datetimes_safely ⟨36000000000, none⟩ ⟨39600000000, some 7200000000⟩ "lt" =
      applyOp "lt" (instantOf ⟨36000000000, some 7200000000⟩) (instantOf ⟨39600000000, some 7200000000⟩) := by
  have h := claimC6_compare_contract ⟨36000000000, none⟩ ⟨39600000000, some 7200000000⟩ "lt" (Or.inl rfl)
  exact ⟨Or.inl rfl, h.1, h.2.1 7200000000 rfl rfl⟩

/-- Claim C10: for pairs of like awareness and an operation string outside
lt/le/gt/ge, the comparator selects no branch in either operation chain and
Python's implicit `None` — not a boolean — is returned. -/
theorem claimC10_invalid_op (dt1 dt2 : PyDateTime) (op : String)
    (hsame : dt1.tz.isNone = dt2.tz.isNone)
    (h1 : op ≠ "lt") (h2 : op ≠ "le") (h3 : op ≠ "gt") (h4 : op ≠ "ge") :
    compare_datetimes_safely dt1 dt2 op = none := by
  rw [compare_same_awareness dt1 dt2 op hsame]
  simp [applyOp, h1, h2, h3, h4]

/-- Witness for C10: the operation `"eq"` on two naive datetimes yields
`none`. -/
theorem claimC10_invalid_op_witness :
    ("eq" ≠ "lt") ∧ compare_datetimes_safely ⟨0, none⟩ ⟨1, none⟩ "eq" = none :=
  ⟨by decide, claimC10_invalid_op ⟨0, none⟩ ⟨1, none⟩ "eq" rfl (by decide) (by decide)
    (by decide) (by decide)⟩

/-! ### Claim theorems: refresh orchestration (C5, C8) -/

/-- Claim C5: every failing refresh outcome — credential acquisition failure,
an exception inside the fetch, a primary status other than 200/404, a 404
whose fallback fetch raises, or a 404 whose fallback fetch returns a non-200
status — leaves `current_booking` and `last_updated` at their prior values. -/
theorem claimC5_failures_preserve_state (st : SharedState) (tok acq : Bool)
    (resp fb : Option HttpResponse) (localOff nowInstant : Int) :
    (fetch_bookings st false false resp fb localOff nowInstant = st) ∧
    (fetch_bookings st tok acq none fb localOff nowInstant = st) ∧
    (∀ r, resp = some r → r.status_code ≠ 200 → r.status_code ≠ 404 →
      fetch_bookings st tok acq resp fb localOff nowInstant = st) ∧
    (∀ r, resp = some r → r.status_code = 404 → fb = none →
      fetch_bookings st tok acq resp fb localOff nowInstant = st) ∧
    (∀ r fr, resp = some r → r.status_code = 404 → fb = some fr → fr.status_code ≠ 200 →
      fetch_bookings st tok acq resp fb localOff nowInstant = st) := by
  refine ⟨?_, ?_, ?_, ?_, ?_⟩
  · cases resp with
    | none => simp [fetch_bookings]
    | some r => simp [fetch_bookings]
  · by_cases htok : tok = false ∧ acq = false <;> simp [fetch_bookings, htok]
  · rintro r rfl hn200 hn404
    by_cases htok : tok = false ∧ acq = false <;>
      simp [fetch_bookings, htok, hn200, hn404]
  · rintro r rfl h404 rfl
    by_cases htok : tok = false ∧ acq = false <;>
      simp [fetch_bookings, fetch_bookings_fallback, htok, h404,
        (by omega : r.status_code = 404 → r.status_code ≠ 200) h404]
  · rintro r fr rfl h404 rfl hn200
    by_cases htok : tok = false ∧ acq = false <;>
      simp [fetch_bookings, fetch_bookings_fallback, htok, h404, hn200,
        (by omega : r.status_code = 404 → r.status_code ≠ 200) h404]

/-- Witness for C5: a 500 response leaves a non-empty prior state unchanged. -/
theorem claimC5_failures_preserve_state_witness :
    ((500 : Nat) ≠ 200) ∧
    fetch_bookings ⟨some (bookingOf (cs "T - S") ⟨0, some 0⟩ ⟨3600000000, some 0⟩ true), some ⟨7, none⟩⟩
      true true (some ⟨500, []⟩) none 0 0 =
      ⟨some (bookingOf (cs "T - S") ⟨0, some 0⟩ ⟨3600000000, some 0⟩ true), some ⟨7, none⟩⟩ :=
  ⟨by decide,
    (claimC5_failures_preserve_state _ true true (some ⟨500, []⟩) none 0 0).2.2.1
      ⟨500, []⟩ rfl (by decide) (by decide)⟩

/-- Claim C8: with a usable credential, a 200 primary response publishes the
selection over its records; a 404 — and only a 404 — invokes the fallback,
which on its own 200 filters the complete list to the end-exclusive local day
window (`fallback_keep`) before selection; any other primary status leaves
the state untouched (no fallback runs: the result is the prior state). -/
theorem claimC8_status_dispatch (st : SharedState) (tok acq : Bool)
    (resp fb : Option HttpResponse) (localOff nowInstant : Int)
    (htok : tok = true ∨ acq = true) :
    (∀ r, resp = some r → r.status_code = 200 →
      fetch_bookings st tok acq resp fb localOff nowInstant =
        { current_booking := selectAppointment localOff ⟨nowInstant + localOff, some localOff⟩ r.value,
          last_updated := some ⟨nowInstant + localOff, none⟩ }) ∧
    (∀ r, resp = some r → r.status_code = 404 →
      fetch_bookings st tok acq resp fb localOff nowInstant =
        fetch_bookings_fallback st fb localOff nowInstant) ∧
    (∀ fr, fb = some fr → fr.status_code = 200 →
      fetch_bookings_fallback st fb localOff nowInstant =
        { current_booking := selectAppointment localOff ⟨nowInstant + localOff, some localOff⟩
            (fr.value.filter (fallback_keep localOff nowInstant)),
          last_updated := some ⟨nowInstant + localOff, none⟩ }) ∧
    (∀ r, resp = some r → r.status_code ≠ 200 → r.status_code ≠ 404 →
      fetch_bookings st tok acq resp fb localOff nowInstant = st) := by
  have hguard : ¬(tok = false ∧ acq = false) := by
    rcases htok with h | h <;> simp [h]
  refine ⟨?_, ?_, ?_, ?_⟩
  · rintro r rfl h200
    simp [fetch_bookings, hguard, h200]
  · rintro r rfl h404
    simp [fetch_bookings, hguard, h404,
      (by omega : r.status_code = 404 → r.status_code ≠ 200) h404]
  · rintro fr rfl h200
    simp [fetch_bookings_fallback, h200]
  · rintro r rfl hn200 hn404
    simp [fetch_bookings, hguard, hn200, hn404]

/-- Witness for C8 at a concrete 404-with-fallback run: the primary 404
delegates to the fallback, whose 200 result filters then selects. -/
theorem claimC8_status_dispatch_witness :
    (true = true ∨ true = true) ∧
    fetch_bookings ⟨none, none⟩ true true (some ⟨404, []⟩)
        (some ⟨200, [⟨.bare (cs "2025-01-02T09:30:00Z"), .bare (cs "2025-01-02T10:30:00Z"), some (cs "A"), none⟩]⟩)
        0 (toMicros 2025 1 2 9 0 0 0) =
      fetch_bookings_fallback ⟨none, none⟩
        (some ⟨200, [⟨.bare (cs "2025-01-02T09:30:00Z"), .bare (cs "2025-01-02T10:30:00Z"), some (cs "A"), none⟩]⟩)
        0 (toMicros 2025 1 2 9 0 0 0) ∧
    fetch_bookings_fallback ⟨none, none⟩
        (some ⟨200, [⟨.bare (cs "2025-01-02T09:30:00Z"), .bare (cs "2025-01-02T10:30:00Z"), some (cs "A"), none⟩]⟩)
        0 (toMicros 2025 1 2 9 0 0 0) =
      { current_booking := selectAppointment 0 ⟨toMicros 2025 1 2 9 0 0 0, some 0⟩
          ([⟨.bare (cs "2025-01-02T09:30:00Z"), .bare (cs "2025-01-02T10:30:00Z"), some (cs "A"), none⟩].filter
            (fallback_keep 0 (toMicros 2025 1 2 9 0 0 0))),
        last_updated := some ⟨toMicros 2025 1 2 9 0 0 0, none⟩ } := by
  have h := claimC8_status_dispatch ⟨none, none⟩ true true (some ⟨404, []⟩)
    (some ⟨200, [⟨.bare (cs "2025-01-02T09:30:00Z"), .bare (cs "2025-01-02T10:30:00Z"), some (cs "A"), none⟩]⟩)
    0 (toMicros 2025 1 2 9 0 0 0) (Or.inl rfl)
  exact ⟨Or.inl rfl, h.2.1 _ rfl rfl, h.2.2.1 _ rfl rfl⟩

/-! ### Claim theorem: query-bound round trip (C4) -/

/-- Claim C4 fails on the code: the outbound query bounds are built by
formatting the *naive local* midnight with a literal `Z` (no UTC conversion,
source lines 147-153).  Evaluated in a UTC+02:00 locale at local noon
2025-06-15: the emitted start bound reads `2025-06-15T00:00:00.000000Z`,
which denotes the instant 2025-06-15 00:00 UTC; converting that bound back to
local time yields 02:00 local — not the local midnight that the local window
(`get_today_range`) starts at, so the round trip of the claim fails. -/
theorem claimC4_query_bound_eval :
    (fetch_window_strings 7200000000 (toMicros 2025 6 15 10 0 0 0)).1 =
      cs "2025-06-15T00:00:00.000000Z" ∧
    parse_graph_datetime (fetch_window_strings 7200000000 (toMicros 2025 6 15 10 0 0 0)).1 =
      some ⟨toMicros 2025 6 15 0 0 0 0, some 0⟩ ∧
    (astimezone 7200000000 ⟨toMicros 2025 6 15 0 0 0 0, some 0⟩).wall =
      toMicros 2025 6 15 2 0 0 0 ∧
    (get_today_range 7200000000 (toMicros 2025 6 15 10 0 0 0)).1.wall =
      toMicros 2025 6 15 0 0 0 0 ∧
    toMicros 2025 6 15 2 0 0 0 ≠ toMicros 2025 6 15 0 0 0 0 := by
  exact ⟨by decide, by decide, by decide, by decide, by decide⟩

/-! ### Claim theorems: day-window validation (C1) -/

theorem astimezone_tz (o : Int) (d : PyDateTime) : (astimezone o d).tz = some o := by
  rcases d with ⟨w, _ | z⟩ <;> rfl

theorem instantOf_eq_of_tz (d : PyDateTime) (o : Int) (h : d.tz = some o) :
    instantOf d = d.wall - o := by
  rcases d with ⟨w, tz⟩
  cases h
  rfl

/-- Claim C1 as amended: only the fallback path validates record dates.  Every
record kept by the fallback's client-side filter has a start string that
parses, whose local reading lies inside today's end-exclusive local window,
and whose local calendar date therefore equals `now`'s local date. -/
theorem claimC1_amended_fallback_window (localOff nowInstant : Int) (a : Appointment)
    (h : fallback_keep localOff nowInstant a = true) :
    ∃ dt, parse_graph_datetime a.startDateTime.extract = some dt ∧
      (get_today_range localOff nowInstant).1.wall ≤ (astimezone localOff dt).wall ∧
      (astimezone localOff dt).wall < (get_today_range localOff nowInstant).2.wall ∧
      localDate (astimezone localOff dt) = localDate ⟨nowInstant + localOff, some localOff⟩ := by
  unfold fallback_keep at h
  by_cases he : a.startDateTime.extract = []
  · rw [if_pos he] at h
    exact absurd h (by decide)
  · rw [if_neg he] at h
    rcases hp : parse_graph_datetime a.startDateTime.extract with _ | dt
    · rw [hp] at h
      simp at h
    · rw [hp] at h
      dsimp only at h
      refine ⟨dt, rfl, ?_⟩
      obtain ⟨w, hwd⟩ : ∃ w, astimezone localOff dt = ⟨w, some localOff⟩ :=
        ⟨(astimezone localOff dt).wall, by rcases dt with ⟨dw, _ | dz⟩ <;> rfl⟩
      have hg : get_today_range localOff nowInstant =
          (⟨(nowInstant + localOff) - (nowInstant + localOff).fmod 86400000000, some localOff⟩,
           ⟨(nowInstant + localOff) - (nowInstant + localOff).fmod 86400000000 + 86400000000,
            some localOff⟩) := rfl
      rw [hwd, hg] at h ⊢
      dsimp only at h ⊢
      rw [compare_same_awareness _ _ _ (by rfl), compare_same_awareness _ _ _ (by rfl)] at h
      simp [applyOp, instantOf] at h
      have h1 : (nowInstant + localOff) - (nowInstant + localOff).fmod 86400000000 ≤ w := by
        omega
      have h2 : w < (nowInstant + localOff) - (nowInstant + localOff).fmod 86400000000 +
          86400000000 := by omega
      refine ⟨h1, h2, ?_⟩
      show w.fdiv 86400000000 = (nowInstant + localOff).fdiv 86400000000
      have e1 := Int.fdiv_add_fmod w 86400000000
      have e2 := Int.fdiv_add_fmod (nowInstant + localOff) 86400000000
      have p1 : 0 ≤ w.fmod 86400000000 := Int.fmod_nonneg' _ (by norm_num)
      have p2 : w.fmod 86400000000 < 86400000000 := Int.fmod_lt_of_pos _ (by norm_num)
      have p3 : 0 ≤ (nowInstant + localOff).fmod 86400000000 :=
        Int.fmod_nonneg' _ (by norm_num)
      have p4 : (nowInstant + localOff).fmod 86400000000 < 86400000000 :=
        Int.fmod_lt_of_pos _ (by norm_num)
      omega

/-- Witness for the amended C1 at a concrete kept record. -/
theorem claimC1_amended_fallback_window_witness :
    fallback_keep 0 (toMicros 2025 1 2 9 0 0 0)
        ⟨.bare (cs "2025-01-02T09:30:00Z"), .bare (cs "2025-01-02T10:30:00Z"), some (cs "A"), none⟩ = true ∧
    ∃ dt, parse_graph_datetime (TsField.bare (cs "2025-01-02T09:30:00Z")).extract = some dt ∧
      (get_today_range 0 (toMicros 2025 1 2 9 0 0 0)).1.wall ≤ (astimezone 0 dt).wall ∧
      (astimezone 0 dt).wall < (get_today_range 0 (toMicros 2025 1 2 9 0 0 0)).2.wall ∧
      localDate (astimezone 0 dt) = localDate ⟨toMicros 2025 1 2 9 0 0 0 + 0, some 0⟩ :=
  ⟨by decide, claimC1_amended_fallback_window 0 (toMicros 2025 1 2 9 0 0 0)
    ⟨.bare (cs "2025-01-02T09:30:00Z"), .bare (cs "2025-01-02T10:30:00Z"), some (cs "A"), none⟩
    (by decide)⟩

/-- Counterexample to C1 as stated: in the primary windowed path no
per-record date check exists.  A record dated 2025-01-01 (local start date ≠
`now`'s local date 2025-01-02) whose raw times bracket `now` (23:00 Jan 1 to
23:00 Jan 2, now = noon Jan 2) is selected and published as the current
booking by `fetch_bookings` on a 200 response. -/
theorem claimC1_counterexample :
    (∃ dt, parse_graph_datetime (cs "2025-01-01T23:00:00Z") = some dt ∧
        localDate (astimezone 0 dt) ≠ localDate ⟨toMicros 2025 1 2 12 0 0 0, some 0⟩) ∧
    fetch_bookings ⟨none, none⟩ true true
        (some ⟨200, [⟨.bare (cs "2025-01-01T23:00:00Z"), .bare (cs "2025-01-02T23:00:00Z"), some (cs "X"), none⟩]⟩)
        none 0 (toMicros 2025 1 2 12 0 0 0) =
      { current_booking := some (bookingOf (cs "X - Booking")
          ⟨toMicros 2025 1 1 23 0 0 0, some 0⟩ ⟨toMicros 2025 1 2 23 0 0 0, some 0⟩ true),
        last_updated := some ⟨toMicros 2025 1 2 12 0 0 0, none⟩ } := by
  exact ⟨⟨⟨toMicros 2025 1 1 23 0 0 0, some 0⟩, by decide, by decide⟩, by decide⟩

/-! ### Claim theorems: published booking shape (C9) -/

theorem bookingOf_shape (title : List Char) (sl el : PyDateTime) (c : Bool) :
    (bookingOf title sl el c).map Prod.fst = ["title", "start", "end", "duration", "is_current"] ∧
    (bookingOf title sl el c).lookup "date" = none ∧
    (bookingOf title sl el c).lookup "start" = some (PyVal.s (fmtTime12 sl)) ∧
    (bookingOf title sl el c).lookup "end" = some (PyVal.s (fmtTime12 el)) ∧
    (bookingOf title sl el c).lookup "duration" =
      some (PyVal.s (strTimedelta (instantOf el - instantOf sl))) ∧
    (bookingOf title sl el c).lookup "is_current" = some (PyVal.b c) := by
  refine ⟨rfl, ?_, ?_, ?_, ?_, ?_⟩ <;> simp [bookingOf, List.lookup]

/-- Claim C9 as amended: every booking published by the selection routine is
one of the two dict literals of the loop body — fields exactly `title`,
`start`, `end`, `duration`, `is_current`, with the times rendered by the
12-hour AM/PM formatter and the duration as the end-minus-start span.  No
`date` field exists. -/
theorem claimC9_amended_booking_fields (localOff : Int) (now : PyDateTime)
    (L : List Appointment) (bk : List (String × PyVal))
    (h : selectAppointment localOff now L = some bk) :
    ∃ title sl el c, bk = bookingOf title sl el c ∧
      bk.map Prod.fst = ["title", "start", "end", "duration", "is_current"] ∧
      bk.lookup "date" = none ∧
      bk.lookup "start" = some (PyVal.s (fmtTime12 sl)) ∧
      bk.lookup "end" = some (PyVal.s (fmtTime12 el)) ∧
      bk.lookup "duration" = some (PyVal.s (strTimedelta (instantOf el - instantOf sl))) ∧
      bk.lookup "is_current" = some (PyVal.b c) := by
  induction L with
  | nil => exact absurd h (by simp [selectAppointment])
  | cons a rest ih =>
    rw [selectAppointment] at h
    by_cases he : a.startDateTime.extract = [] ∨ a.endDateTime.extract = []
    · rw [if_pos he] at h
      exact ih h
    · rw [if_neg he] at h
      rcases h1 : parse_graph_datetime a.startDateTime.extract with _ | st <;>
        rcases h2 : parse_graph_datetime a.endDateTime.extract with _ | et <;>
        rw [h1, h2] at h <;> dsimp only at h
      · exact ih h
      · exact ih h
      · exact ih h
      · by_cases hc1 : (compare_datetimes_safely now (astimezone localOff st) "lt").getD false = true
        · rw [if_pos hc1] at h
          cases h
          exact ⟨_, _, _, false, rfl, bookingOf_shape _ _ _ _⟩
        · rw [if_neg hc1] at h
          by_cases hc2 : (compare_datetimes_safely (astimezone localOff st) now "le").getD false = true ∧
              (compare_datetimes_safely now (astimezone localOff et) "le").getD false = true
          · rw [if_pos hc2] at h
            cases h
            exact ⟨_, _, _, true, rfl, bookingOf_shape _ _ _ _⟩
          · rw [if_neg hc2] at h
            exact ih h

/-- Witness for the amended C9 at a concrete selection result. -/
theorem claimC9_amended_booking_fields_witness :
    (selectAppointment 0 ⟨toMicros 2025 1 2 10 0 0 0, some 0⟩
        [⟨.bare (cs "2025-01-02T09:30:00Z"), .bare (cs "2025-01-02T10:30:00Z"), some (cs "A"), none⟩] =
      some (bookingOf (cs "A - Booking") ⟨toMicros 2025 1 2 9 30 0 0, some 0⟩
        ⟨toMicros 2025 1 2 10 30 0 0, some 0⟩ true)) ∧
    ∃ title sl el c,
      bookingOf (cs "A - Booking") ⟨toMicros 2025 1 2 9 30 0 0, some 0⟩
          ⟨toMicros 2025 1 2 10 30 0 0, some 0⟩ true = bookingOf title sl el c ∧
      (bookingOf (cs "A - Booking") ⟨toMicros 2025 1 2 9 30 0 0, some 0⟩
          ⟨toMicros 2025 1 2 10 30 0 0, some 0⟩ true).map Prod.fst =
        ["title", "start", "end", "duration", "is_current"] ∧
      (bookingOf (cs "A - Booking") ⟨toMicros 2025 1 2 9 30 0 0, some 0⟩
          ⟨toMicros 2025 1 2 10 30 0 0, some 0⟩ true).lookup "date" = none ∧
      (bookingOf (cs "A - Booking") ⟨toMicros 2025 1 2 9 30 0 0, some 0⟩
          ⟨toMicros 2025 1 2 10 30 0 0, some 0⟩ true).lookup "start" =
        some (PyVal.s (fmtTime12 sl)) ∧
      (bookingOf (cs "A - Booking") ⟨toMicros 2025 1 2 9 30 0 0, some 0⟩
          ⟨toMicros 2025 1 2 10 30 0 0, some 0⟩ true).lookup "end" =
        some (PyVal.s (fmtTime12 el)) ∧
      (bookingOf (cs "A - Booking") ⟨toMicros 2025 1 2 9 30 0 0, some 0⟩
          ⟨toMicros 2025 1 2 10 30 0 0, some 0⟩ true).lookup "duration" =
        some (PyVal.s (strTimedelta (instantOf el - instantOf sl))) ∧
      (bookingOf (cs "A - Booking") ⟨toMicros 2025 1 2 9 30 0 0, some 0⟩
          ⟨toMicros 2025 1 2 10 30 0 0, some 0⟩ true).lookup "is_current" =
        some (PyVal.b c) :=
  ⟨by decide, claimC9_amended_booking_fields 0 ⟨toMicros 2025 1 2 10 0 0 0, some 0⟩
    [⟨.bare (cs "2025-01-02T09:30:00Z"), .bare (cs "2025-01-02T10:30:00Z"), some (cs "A"), none⟩]
    _ (by decide)⟩

/-- Counterexample to C9 as stated: a concretely published booking carries no
`date` key at all (let alone a long-form month/day/year one) — its keys are
exactly `title`, `start`, `end`, `duration`, `is_current`. -/
theorem claimC9_counterexample :
    ((selectAppointment 0 ⟨toMicros 2025 1 2 10 0 0 0, some 0⟩
        [⟨.bare (cs "2025-01-02T09:30:00Z"), .bare (cs "2025-01-02T10:30:00Z"), some (cs "A"), none⟩]).getD []).map
        Prod.fst = ["title", "start", "end", "duration", "is_current"] ∧
    ((selectAppointment 0 ⟨toMicros 2025 1 2 10 0 0 0, some 0⟩
        [⟨.bare (cs "2025-01-02T09:30:00Z"), .bare (cs "2025-01-02T10:30:00Z"), some (cs "A"), none⟩]).getD []).lookup
        "date" = none := by
  exact ⟨by decide, by decide⟩

/-! ### Claim theorems: normalizer failure handling (C7) -/

/-- Claim C7: the normalizer is total (the embedding of both `try/except`
layers returns a typed `Option`, never propagating an error): the empty
string yields `none`; whenever both the primary parse and the
fraction-stripping recovery parse fail the result is `none`; and in the
selection loop such a record is skipped — the scan over the remaining records
continues unchanged rather than aborting the batch. -/
theorem claimC7_normalize_total (s : List Char) (localOff : Int) (now : PyDateTime)
    (a : Appointment) (rest : List Appointment) :
    (parse_graph_datetime [] = none) ∧
    (graph_primary s = none → graph_recovery s = none → parse_graph_datetime s = none) ∧
    (parse_graph_datetime a.startDateTime.extract = none →
      selectAppointment localOff now (a :: rest) = selectAppointment localOff now rest) := by
  refine ⟨rfl, ?_, ?_⟩
  · intro h1 h2
    unfold parse_graph_datetime
    by_cases hs : s = []
    · rw [if_pos hs]
    · rw [if_neg hs, h1, h2]
  · intro hp
    rw [selectAppointment]
    by_cases he : a.startDateTime.extract = [] ∨ a.endDateTime.extract = []
    · rw [if_pos he]
    · rw [if_neg he]
      rcases h2 : parse_graph_datetime a.endDateTime.extract with _ | et <;> rw [hp]

/-- Witness for C7: `"garbage"` fails both parses and yields `none`, and a
record with that start string is skipped while the following record is still
considered. -/
theorem claimC7_normalize_total_witness :
    (graph_primary (cs "garbage") = none) ∧
    (parse_graph_datetime (cs "garbage") = none) ∧
    selectAppointment 0 ⟨toMicros 2025 1 2 10 0 0 0, some 0⟩
        [⟨.bare (cs "garbage"), .bare (cs "2025-01-02T10:30:00Z"), none, none⟩,
         ⟨.bare (cs "2025-01-02T09:30:00Z"), .bare (cs "2025-01-02T10:30:00Z"), some (cs "A"), none⟩] =
      selectAppointment 0 ⟨toMicros 2025 1 2 10 0 0 0, some 0⟩
        [⟨.bare (cs "2025-01-02T09:30:00Z"), .bare (cs "2025-01-02T10:30:00Z"), some (cs "A"), none⟩] :=
  ⟨by decide,
    (claimC7_normalize_total (cs "garbage") 0 ⟨toMicros 2025 1 2 10 0 0 0, some 0⟩
      ⟨.bare (cs "garbage"), .bare (cs "2025-01-02T10:30:00Z"), none, none⟩
      [⟨.bare (cs "2025-01-02T09:30:00Z"), .bare (cs "2025-01-02T10:30:00Z"), some (cs "A"), none⟩]).2.1
      (by decide) (by decide),
    (claimC7_normalize_total (cs "garbage") 0 ⟨toMicros 2025 1 2 10 0 0 0, some 0⟩
      ⟨.bare (cs "garbage"), .bare (cs "2025-01-02T10:30:00Z"), none, none⟩
      [⟨.bare (cs "2025-01-02T09:30:00Z"), .bare (cs "2025-01-02T10:30:00Z"), some (cs "A"), none⟩]).2.2
      (by decide)⟩

/-! ### Claim theorems: classification and first-match scan (C2) -/

/-- A record whose two timestamp fields are non-empty and parse to the given
datetimes — the abstraction level at which the selection algorithm's
classification is stated. -/
def ParsesTo (a : Appointment) (st et : PyDateTime) : Prop :=
  a.startDateTime.extract ≠ [] ∧ a.endDateTime.extract ≠ [] ∧
  parse_graph_datetime a.startDateTime.extract = some st ∧
  parse_graph_datetime a.endDateTime.extract = some et

instance (a : Appointment) (st et : PyDateTime) : Decidable (ParsesTo a st et) := by
  unfold ParsesTo
  infer_instance

/-- The title the loop synthesises for a record. -/
def titleOf (a : Appointment) : List Char :=
  a.customerName.getD (cs "Unknown Customer") ++ cs " - " ++ a.serviceName.getD (cs "Booking")

theorem select_step (localOff : Int) (now : PyDateTime) (a : Appointment)
    (rest : List Appointment) (st et : PyDateTime) (hP : ParsesTo a st et)
    (hnow : now.tz.isSome = true) :
    (instantOf now < instantOf (astimezone localOff st) →
      selectAppointment localOff now (a :: rest) =
        some (bookingOf (titleOf a) (astimezone localOff st) (astimezone localOff et) false)) ∧
    (instantOf (astimezone localOff st) ≤ instantOf now →
      instantOf now ≤ instantOf (astimezone localOff et) →
      selectAppointment localOff now (a :: rest) =
        some (bookingOf (titleOf a) (astimezone localOff st) (astimezone localOff et) true)) ∧
    (instantOf (astimezone localOff st) ≤ instantOf now →
      instantOf (astimezone localOff et) < instantOf now →
      selectAppointment localOff now (a :: rest) = selectAppointment localOff now rest) := by
  obtain ⟨hs, he, h1, h2⟩ := hP
  obtain ⟨z, hz⟩ := Option.isSome_iff_exists.mp hnow
  rw [selectAppointment, if_neg (by simp [hs, he]), h1, h2]
  dsimp only
  rw [compare_same_awareness _ _ _ (by simp [hz, astimezone_tz]),
    compare_same_awareness _ _ _ (by simp [hz, astimezone_tz]),
    compare_same_awareness _ _ _ (by simp [hz, astimezone_tz])]
  simp only [applyOp, if_pos rfl, if_neg (show ¬("le" = "lt") by decide), Option.getD_some]
  refine ⟨?_, ?_, ?_⟩
  · intro hlt
    rw [if_pos (by simp [hlt])]
    rfl
  · intro hle1 hle2
    rw [if_neg (by simp; omega), if_pos (by simp [hle1, hle2])]
    rfl
  · intro hle1 hlt2
    rw [if_neg (by simp; omega), if_neg (by simp; omega)]

theorem select_current_of_sorted (localOff : Int) (now : PyDateTime)
    (hnow : now.tz.isSome = true) :
    ∀ (L : List (Appointment × PyDateTime × PyDateTime)),
    (∀ x ∈ L, ParsesTo x.1 x.2.1 x.2.2) →
    L.Pairwise (fun x y =>
      instantOf (astimezone localOff x.2.1) ≤ instantOf (astimezone localOff y.2.1)) →
    (∃ x ∈ L, instantOf (astimezone localOff x.2.1) ≤ instantOf now ∧
      instantOf now ≤ instantOf (astimezone localOff x.2.2)) →
    ∃ x ∈ L, instantOf (astimezone localOff x.2.1) ≤ instantOf now ∧
      instantOf now ≤ instantOf (astimezone localOff x.2.2) ∧
      selectAppointment localOff now (L.map Prod.fst) =
        some (bookingOf (titleOf x.1) (astimezone localOff x.2.1) (astimezone localOff x.2.2) true) := by
  intro L
  induction L with
  | nil =>
    intro _ _ hex
    simp at hex
  | cons hd tl ih =>
    intro hgood hsorted hex
    have hP := hgood hd (List.mem_cons_self hd tl)
    have step := select_step localOff now hd.1 (tl.map Prod.fst) hd.2.1 hd.2.2 hP hnow
    by_cases hcur : instantOf (astimezone localOff hd.2.1) ≤ instantOf now ∧
        instantOf now ≤ instantOf (astimezone localOff hd.2.2)
    · exact ⟨hd, List.mem_cons_self hd tl, hcur.1, hcur.2, step.2.1 hcur.1 hcur.2⟩
    · obtain ⟨x, hxmem, hx1, hx2⟩ := hex
      have hxtl : x ∈ tl := by
        rcases List.mem_cons.mp hxmem with rfl | hm
        · exact absurd ⟨hx1, hx2⟩ hcur
        · exact hm
      have hsc := List.pairwise_cons.mp hsorted
      have hstart_le : instantOf (astimezone localOff hd.2.1) ≤ instantOf now :=
        le_trans (hsc.1 x hxtl) hx1
      have hend_lt : instantOf (astimezone localOff hd.2.2) < instantOf now := by
        by_contra hc
        push_neg at hc
        exact hcur ⟨hstart_le, hc⟩
      obtain ⟨y, hymem, hy1, hy2, hy3⟩ :=
        ih (fun u hu => hgood u (List.mem_cons_of_mem hd hu)) hsc.2 ⟨x, hxtl, hx1, hx2⟩
      refine ⟨y, List.mem_cons_of_mem hd hymem, hy1, hy2, ?_⟩
      rw [List.map_cons, step.2.2 hstart_le hend_lt]
      exact hy3

/-- Claim C2: with `now` offset-aware (as `datetime.now().astimezone()`
always is), the scan classifies the head record as "next" exactly when
`now < start_local` (publishing it with `is_current = false` and stopping),
as "current" exactly when `start_local <= now <= end_local` (publishing it
with `is_current = true` and stopping), and otherwise moves on to the rest of
the list; consequently, over any list of parsed records sorted ascending by
local start, whenever an in-progress record exists the scan returns an
in-progress record with `is_current = true`, even when later not-yet-started
records follow. -/
theorem claimC2_classification (localOff : Int) (now : PyDateTime)
    (hnow : now.tz.isSome = true) :
    (∀ (a : Appointment) (rest : List Appointment) (st et : PyDateTime), ParsesTo a st et →
      ((instantOf now < instantOf (astimezone localOff st) →
        selectAppointment localOff now (a :: rest) =
          some (bookingOf (titleOf a) (astimezone localOff st) (astimezone localOff et) false)) ∧
       (instantOf (astimezone localOff st) ≤ instantOf now →
        instantOf now ≤ instantOf (astimezone localOff et) →
        selectAppointment localOff now (a :: rest) =
          some (bookingOf (titleOf a) (astimezone localOff st) (astimezone localOff et) true)) ∧
       (instantOf (astimezone localOff st) ≤ instantOf now →
        instantOf (astimezone localOff et) < instantOf now →
        selectAppointment localOff now (a :: rest) = selectAppointment localOff now rest))) ∧
    (∀ (L : List (Appointment × PyDateTime × PyDateTime)),
      (∀ x ∈ L, ParsesTo x.1 x.2.1 x.2.2) →
      L.Pairwise (fun x y =>
        instantOf (astimezone localOff x.2.1) ≤ instantOf (astimezone localOff y.2.1)) →
      (∃ x ∈ L, instantOf (astimezone localOff x.2.1) ≤ instantOf now ∧
        instantOf now ≤ instantOf (astimezone localOff x.2.2)) →
      ∃ x ∈ L, instantOf (astimezone localOff x.2.1) ≤ instantOf now ∧
        instantOf now ≤ instantOf (astimezone localOff x.2.2) ∧
        selectAppointment localOff now (L.map Prod.fst) =
          some (bookingOf (titleOf x.1) (astimezone localOff x.2.1)
            (astimezone localOff x.2.2) true)) :=
  ⟨fun a rest st et hP => select_step localOff now a rest st et hP hnow,
   select_current_of_sorted localOff now hnow⟩

/-- Witness for C2 at the spec's worked example: now = 10:00, A in progress
09:30-10:30, B next 11:00-12:00 — A is selected with `is_current = true`. -/
theorem claimC2_classification_witness :
    ParsesTo ⟨.bare (cs "2025-01-02T09:30:00Z"), .bare (cs "2025-01-02T10:30:00Z"), some (cs "A"), none⟩
      ⟨toMicros 2025 1 2 9 30 0 0, some 0⟩ ⟨toMicros 2025 1 2 10 30 0 0, some 0⟩ ∧
    selectAppointment 0 ⟨toMicros 2025 1 2 10 0 0 0, some 0⟩
        [⟨.bare (cs "2025-01-02T09:30:00Z"), .bare (cs "2025-01-02T10:30:00Z"), some (cs "A"), none⟩,
         ⟨.bare (cs "2025-01-02T11:00:00Z"), .bare (cs "2025-01-02T12:00:00Z"), some (cs "B"), none⟩] =
      some (bookingOf
        (titleOf ⟨.bare (cs "2025-01-02T09:30:00Z"), .bare (cs "2025-01-02T10:30:00Z"), some (cs "A"), none⟩)
        (astimezone 0 ⟨toMicros 2025 1 2 9 30 0 0, some 0⟩)
        (astimezone 0 ⟨toMicros 2025 1 2 10 30 0 0, some 0⟩) true) :=
  ⟨by decide,
    ((claimC2_classification 0 ⟨toMicros 2025 1 2 10 0 0 0, some 0⟩ (by decide)).1
      ⟨.bare (cs "2025-01-02T09:30:00Z"), .bare (cs "2025-01-02T10:30:00Z"), some (cs "A"), none⟩
      [⟨.bare (cs "2025-01-02T11:00:00Z"), .bare (cs "2025-01-02T12:00:00Z"), some (cs "B"), none⟩]
      ⟨toMicros 2025 1 2 9 30 0 0, some 0⟩ ⟨toMicros 2025 1 2 10 30 0 0, some 0⟩
      (by decide)).2.1 (by decide) (by decide)⟩

/-! ### Claim C3: the family of valid ISO-8601-like input strings.
`renderTs` generates `YYYY-MM-DDTHH:MM:SS[.digits]SUFFIX` with an arbitrary
fractional digit list and a `Z` or explicit `±HH:MM` suffix — the input family
the claim quantifies over. -/

/-- A timestamp suffix: trailing `Z` or an explicit numeric UTC offset. -/
inductive TzSuffix where
  | zulu
  | plus (oh om : Nat)
  | minus (oh om : Nat)
deriving DecidableEq

/-- Rendered suffix text. -/
def renderTz : TzSuffix → List Char
  | .zulu => ['Z']
  | .plus oh om => '+' :: (two oh ++ ':' :: two om)
  | .minus oh om => '-' :: (two oh ++ ':' :: two om)

/-- Rendered fractional part: nothing for no digits, else `.` then digits. -/
def renderFrac (frac : List Nat) : List Char :=
  if frac = [] then [] else '.' :: frac.map dchar

/-- Rendered `YYYY-MM-DDTHH:MM:SS` prefix. -/
def renderBase (y mo d h mi s : Nat) : List Char :=
  four y ++ '-' :: (two mo ++ '-' :: (two d ++ 'T' :: (two h ++ ':' :: (two mi ++ ':' :: two s))))

/-- A full rendered timestamp string. -/
def renderTs (y mo d h mi s : Nat) (frac : List Nat) (tz : TzSuffix) : List Char :=
  renderBase y mo d h mi s ++ renderFrac frac ++ renderTz tz

/-- The claim's normalisation of the fractional digit list: truncate to six
digits, right-padding with zeros when fewer. -/
def truncPadDigits (frac : List Nat) : List Nat :=
  frac.take 6 ++ List.replicate (6 - (frac.take 6).length) 0

/-- The UTC offset, in microseconds, denoted by a suffix. -/
def tzOffVal : TzSuffix → Int
  | .zulu => 0
  | .plus oh om => (((oh * 3600 + om * 60) * 1000000 : Nat) : Int)
  | .minus oh om => -(((oh * 3600 + om * 60) * 1000000 : Nat) : Int)

/-! Character-level facts about rendered digits. -/

theorem dchar_isDigit (k : Nat) (h : k < 10) : (dchar k).isDigit = true := by
  interval_cases k <;> decide

theorem dchar_val (k : Nat) (h : k < 10) : digitVal (dchar k) = k := by
  interval_cases k <;> decide

theorem two_all_digits (n : Nat) (h : n < 100) : ∀ c ∈ two n, c.isDigit = true := by
  intro c hc
  rcases List.mem_cons.mp hc with rfl | hc2
  · exact dchar_isDigit _ (by omega)
  · rcases List.mem_cons.mp hc2 with rfl | hc3
    · exact dchar_isDigit _ (by omega)
    · cases hc3

theorem four_all_digits (n : Nat) (h : n < 10000) : ∀ c ∈ four n, c.isDigit = true := by
  intro c hc
  rcases List.mem_cons.mp hc with rfl | hc2
  · exact dchar_isDigit _ (by omega)
  · rcases List.mem_cons.mp hc2 with rfl | hc3
    · exact dchar_isDigit _ (by omega)
    · rcases List.mem_cons.mp hc3 with rfl | hc4
      · exact dchar_isDigit _ (by omega)
      · rcases List.mem_cons.mp hc4 with rfl | hc5
        · exact dchar_isDigit _ (by omega)
        · cases hc5

theorem map_dchar_all_digits (ds : List Nat) (h : ∀ x ∈ ds, x < 10) :
    ∀ c ∈ ds.map dchar, c.isDigit = true := by
  intro c hc
  obtain ⟨k, hk, rfl⟩ := List.mem_map.mp hc
  exact dchar_isDigit k (h k hk)

/-- Character classification of the rendered time-of-day-with-fraction part. -/
theorem time_chars (h mi s : Nat) (hh : h < 100) (hm : mi < 100) (hs : s < 100)
    (fr : List Char) (hall : ∀ x ∈ fr, x.isDigit = true) :
    ∀ c ∈ two h ++ ':' :: (two mi ++ ':' :: (two s ++ '.' :: fr)),
      c.isDigit = true ∨ c = ':' ∨ c = '.' := by
  intro c hc
  rcases List.mem_append.mp hc with h1 | h1
  · exact Or.inl (two_all_digits h hh c h1)
  · rcases List.mem_cons.mp h1 with rfl | h2
    · exact Or.inr (Or.inl rfl)
    · rcases List.mem_append.mp h2 with h3 | h3
      · exact Or.inl (two_all_digits mi hm c h3)
      · rcases List.mem_cons.mp h3 with rfl | h4
        · exact Or.inr (Or.inl rfl)
        · rcases List.mem_append.mp h4 with h5 | h5
          · exact Or.inl (two_all_digits s hs c h5)
          · rcases List.mem_cons.mp h5 with rfl | h6
            · exact Or.inr (Or.inr rfl)
            · exact Or.inl (hall c h6)

/-- Character classification of the rendered plain time-of-day part. -/
theorem time_chars_nofrac (h mi s : Nat) (hh : h < 100) (hm : mi < 100) (hs : s < 100) :
    ∀ c ∈ two h ++ ':' :: (two mi ++ ':' :: two s), c.isDigit = true ∨ c = ':' := by
  intro c hc
  rcases List.mem_append.mp hc with h1 | h1
  · exact Or.inl (two_all_digits h hh c h1)
  · rcases List.mem_cons.mp h1 with rfl | h2
    · exact Or.inr rfl
    · rcases List.mem_append.mp h2 with h3 | h3
      · exact Or.inl (two_all_digits mi hm c h3)
      · rcases List.mem_cons.mp h3 with rfl | h4
        · exact Or.inr rfl
        · exact Or.inl (two_all_digits s hs c h4)

/-- Character classification of the rendered `HH:MM` offset tail. -/
theorem tz_tail_chars (oh om : Nat) (hoh : oh < 100) (hom : om < 100) :
    ∀ c ∈ two oh ++ ':' :: two om, c.isDigit = true ∨ c = ':' := by
  intro c hc
  rcases List.mem_append.mp hc with h1 | h1
  · exact Or.inl (two_all_digits oh hoh c h1)
  · rcases List.mem_cons.mp h1 with rfl | h2
    · exact Or.inr rfl
    · exact Or.inl (two_all_digits om hom c h2)

/-- Character classification of the rendered date prefix. -/
theorem base_chars (y mo d h mi s : Nat) (hy : y < 10000) (hmo : mo < 100) (hd : d < 100)
    (hh : h < 100) (hm : mi < 100) (hs : s < 100) :
    ∀ c ∈ renderBase y mo d h mi s, c.isDigit = true ∨ c = '-' ∨ c = 'T' ∨ c = ':' := by
  intro c hc
  rcases List.mem_append.mp hc with h1 | h1
  · exact Or.inl (four_all_digits y hy c h1)
  · rcases List.mem_cons.mp h1 with rfl | h2
    · exact Or.inr (Or.inl rfl)
    · rcases List.mem_append.mp h2 with h3 | h3
      · exact Or.inl (two_all_digits mo hmo c h3)
      · rcases List.mem_cons.mp h3 with rfl | h4
        · exact Or.inr (Or.inl rfl)
        · rcases List.mem_append.mp h4 with h5 | h5
          · exact Or.inl (two_all_digits d hd c h5)
          · rcases List.mem_cons.mp h5 with rfl | h6
            · exact Or.inr (Or.inr (Or.inl rfl))
            · rcases time_chars_nofrac h mi s hh hm hs c h6 with h7 | h7
              · exact Or.inl h7
              · exact Or.inr (Or.inr (Or.inr h7))

/-! String-manipulation lemmas on rendered input. -/

theorem not_mem_head {c x : Char} {xs : List Char} (h : c ∉ x :: xs) : ¬(x = c) :=
  fun e => h (List.mem_cons.mpr (Or.inl e.symm))

theorem not_mem_tail {c x : Char} {xs : List Char} (h : c ∉ x :: xs) : c ∉ xs :=
  fun hm => h (List.mem_cons_of_mem x hm)

theorem splitFirst_of_not_mem (c : Char) (xs : List Char) (h : c ∉ xs) :
    splitFirst c xs = none := by
  induction xs with
  | nil => rfl
  | cons x xs ih =>
    rw [splitFirst, if_neg (not_mem_head h), ih (not_mem_tail h)]
    rfl

theorem splitFirst_append_cons (c : Char) (xs ys : List Char) (h : c ∉ xs) :
    splitFirst c (xs ++ c :: ys) = some (xs, ys) := by
  induction xs with
  | nil => simp [splitFirst]
  | cons x xs ih =>
    rw [List.cons_append, splitFirst, if_neg (not_mem_head h), ih (not_mem_tail h)]
    rfl

theorem rsplitLast_of_not_mem (c : Char) (xs : List Char) (h : c ∉ xs) :
    rsplitLast c xs = none := by
  induction xs with
  | nil => rfl
  | cons x xs ih =>
    rw [rsplitLast, ih (not_mem_tail h), if_neg (not_mem_head h)]

theorem rsplitLast_append_cons (c : Char) (xs ys : List Char) (h : c ∉ ys) :
    rsplitLast c (xs ++ c :: ys) = some (xs, ys) := by
  induction xs with
  | nil =>
    rw [List.nil_append, rsplitLast, rsplitLast_of_not_mem c ys h, if_pos rfl]
  | cons x xs ih =>
    rw [List.cons_append, rsplitLast, ih]

theorem pyReplaceChar_of_not_mem (c : Char) (r xs : List Char) (h : c ∉ xs) :
    pyReplaceChar c r xs = xs := by
  induction xs with
  | nil => rfl
  | cons x xs ih =>
    rw [pyReplaceChar, if_neg (not_mem_head h), ih (not_mem_tail h)]

theorem pyReplaceChar_append_single (c : Char) (r xs : List Char) (h : c ∉ xs) :
    pyReplaceChar c r (xs ++ [c]) = xs ++ r := by
  induction xs with
  | nil => simp [pyReplaceChar]
  | cons x xs ih =>
    rw [List.cons_append, pyReplaceChar, if_neg (not_mem_head h), ih (not_mem_tail h),
      List.cons_append]

theorem parse2_two (n : Nat) (h : n < 100) (r : List Char) :
    parse2 (two n ++ r) = some (n, r) := by
  show parse2 (dchar (n / 10) :: dchar (n % 10) :: r) = some (n, r)
  rw [parse2, if_pos ⟨dchar_isDigit _ (by omega), dchar_isDigit _ (by omega)⟩,
    dchar_val _ (by omega), dchar_val _ (by omega)]
  have e : n / 10 * 10 + n % 10 = n := by omega
  rw [e]

theorem parse2_two_nil (n : Nat) (h : n < 100) : parse2 (two n) = some (n, []) := by
  have e : two n = two n ++ [] := by simp
  rw [e, parse2_two n h]

theorem digitsVal_four_digits (y : Nat) (h : y < 10000) :
    digitsVal [dchar (y / 1000), dchar (y / 100 % 10), dchar (y / 10 % 10), dchar (y % 10)] = y := by
  unfold digitsVal
  simp only [List.foldl]
  rw [dchar_val _ (by omega), dchar_val _ (by omega), dchar_val _ (by omega),
    dchar_val _ (by omega)]
  omega

theorem hmsff_nofrac (h mi s : Nat) (hh : h < 100) (hm : mi < 100) (hs : s < 100) :
    parse_hh_mm_ss_ff (two h ++ ':' :: (two mi ++ ':' :: two s)) = some (h, mi, s, 0) := by
  unfold parse_hh_mm_ss_ff
  rw [parse2_two h hh]
  simp only [Option.bind_eq_bind, Option.some_bind]
  rw [parse2_two mi hm]
  simp only [Option.some_bind]
  rw [parse2_two_nil s hs]
  simp only [Option.some_bind]

theorem hmsff_frac6 (h mi s : Nat) (hh : h < 100) (hm : mi < 100) (hs : s < 100)
    (fr : List Char) (hlen : fr.length = 6) (hall : ∀ x ∈ fr, x.isDigit = true) :
    parse_hh_mm_ss_ff (two h ++ ':' :: (two mi ++ ':' :: (two s ++ '.' :: fr))) =
      some (h, mi, s, digitsVal fr) := by
  unfold parse_hh_mm_ss_ff
  rw [parse2_two h hh]
  simp only [Option.bind_eq_bind, Option.some_bind]
  rw [parse2_two mi hm]
  simp only [Option.some_bind]
  rw [parse2_two s hs]
  simp only [Option.some_bind]
  rw [if_neg (by simp [hlen]), if_pos ⟨hlen, List.all_eq_true.mpr hall⟩]

theorem findTzSign_plus (xs ys : List Char) (hminus : '-' ∉ xs ++ '+' :: ys)
    (hplus : '+' ∉ xs) : findTzSign (xs ++ '+' :: ys) = some (xs, '+', ys) := by
  unfold findTzSign
  rw [splitFirst_of_not_mem _ _ hminus, splitFirst_append_cons _ _ _ hplus]

theorem hmsff_hm (h mi : Nat) (hh : h < 100) (hm : mi < 100) :
    parse_hh_mm_ss_ff (two h ++ ':' :: two mi) = some (h, mi, 0, 0) := by
  unfold parse_hh_mm_ss_ff
  rw [parse2_two h hh]
  simp only [Option.bind_eq_bind, Option.some_bind]
  rw [parse2_two_nil mi hm]
  simp only [Option.some_bind]

theorem ptime_frac6_plus (h mi s oh om : Nat) (hh : h < 100) (hm : mi < 100) (hs : s < 100)
    (hoh : oh < 100) (hom : om < 100) (fr : List Char) (hlen : fr.length = 6)
    (hall : ∀ x ∈ fr, x.isDigit = true) :
    parse_isoformat_time
        (two h ++ ':' :: (two mi ++ ':' :: (two s ++ '.' :: (fr ++ '+' :: (two oh ++ ':' :: two om))))) =
      some (h, mi, s, digitsVal fr, some (((oh * 3600 + om * 60) * 1000000 : Nat) : Int)) := by
  have hshape :
      two h ++ ':' :: (two mi ++ ':' :: (two s ++ '.' :: (fr ++ '+' :: (two oh ++ ':' :: two om)))) =
        (two h ++ ':' :: (two mi ++ ':' :: (two s ++ '.' :: fr))) ++ '+' :: (two oh ++ ':' :: two om) := by
    simp [List.append_assoc]
  have htime := time_chars h mi s hh hm hs fr hall
  have htz := tz_tail_chars oh om hoh hom
  have hminus : '-' ∉ (two h ++ ':' :: (two mi ++ ':' :: (two s ++ '.' :: fr))) ++
      '+' :: (two oh ++ ':' :: two om) := by
    intro hmem
    rcases List.mem_append.mp hmem with h1 | h1
    · exact absurd (htime '-' h1) (by decide)
    · rcases List.mem_cons.mp h1 with e | h2
      · exact absurd e (by decide)
      · exact absurd (htz '-' h2) (by decide)
  have hplus : '+' ∉ two h ++ ':' :: (two mi ++ ':' :: (two s ++ '.' :: fr)) := by
    intro hmem
    exact absurd (htime '+' hmem) (by decide)
  unfold parse_isoformat_time
  rw [hshape, if_neg (by simp [two]), findTzSign_plus _ _ hminus hplus]
  simp only [Option.bind_eq_bind, Option.some_bind]
  rw [hmsff_frac6 h mi s hh hm hs fr hlen hall]
  simp only [Option.some_bind]
  rw [if_pos (Or.inl (by simp [two]))]
  rw [hmsff_hm oh om hoh hom]
  simp only [Option.some_bind]
  by_cases hz : oh = 0 ∧ om = 0
  · obtain ⟨rfl, rfl⟩ := hz
    simp
  · rw [if_neg (by simpa using hz), if_neg (by decide : ¬('+' = '-'))]
    norm_num

theorem ptime_nofrac_plus (h mi s oh om : Nat) (hh : h < 100) (hm : mi < 100) (hs : s < 100)
    (hoh : oh < 100) (hom : om < 100) :
    parse_isoformat_time
        (two h ++ ':' :: (two mi ++ ':' :: (two s ++ '+' :: (two oh ++ ':' :: two om)))) =
      some (h, mi, s, 0, some (((oh * 3600 + om * 60) * 1000000 : Nat) : Int)) := by
  have hshape :
      two h ++ ':' :: (two mi ++ ':' :: (two s ++ '+' :: (two oh ++ ':' :: two om))) =
        (two h ++ ':' :: (two mi ++ ':' :: two s)) ++ '+' :: (two oh ++ ':' :: two om) := by
    simp [List.append_assoc]
  have htime := time_chars_nofrac h mi s hh hm hs
  have htz := tz_tail_chars oh om hoh hom
  have hminus : '-' ∉ (two h ++ ':' :: (two mi ++ ':' :: two s)) ++
      '+' :: (two oh ++ ':' :: two om) := by
    intro hmem
    rcases List.mem_append.mp hmem with h1 | h1
    · exact absurd (htime '-' h1) (by decide)
    · rcases List.mem_cons.mp h1 with e | h2
      · exact absurd e (by decide)
      · exact absurd (htz '-' h2) (by decide)
  have hplus : '+' ∉ two h ++ ':' :: (two mi ++ ':' :: two s) := by
    intro hmem
    exact absurd (htime '+' hmem) (by decide)
  unfold parse_isoformat_time
  rw [hshape, if_neg (by simp [two]), findTzSign_plus _ _ hminus hplus]
  simp only [Option.bind_eq_bind, Option.some_bind]
  rw [hmsff_nofrac h mi s hh hm hs]
  simp only [Option.some_bind]
  rw [if_pos (Or.inl (by simp [two]))]
  rw [hmsff_hm oh om hoh hom]
  simp only [Option.some_bind]
  by_cases hz : oh = 0 ∧ om = 0
  · obtain ⟨rfl, rfl⟩ := hz
    simp
  · rw [if_neg (by simpa using hz), if_neg (by decide : ¬('+' = '-'))]
    norm_num

theorem daysInMonth_le31 (y mo : Nat) : daysInMonth y mo ≤ 31 := by
  unfold daysInMonth
  split
  · split <;> omega
  · split <;> omega

theorem fromisoformat_render (y mo d : Nat) (tstr : List Char)
    (h mi s us : Nat) (off : Option Int)
    (hy1 : 1 ≤ y) (hy : y < 10000) (hmo1 : 1 ≤ mo) (hmo : mo ≤ 12) (hd1 : 1 ≤ d)
    (hd : d ≤ daysInMonth y mo) (hh : h ≤ 23) (hmi : mi ≤ 59) (hs : s ≤ 59)
    (hoff : (off.getD 0).natAbs < 86400000000)
    (ht : parse_isoformat_time tstr = some (h, mi, s, us, off)) :
    fromisoformat (four y ++ '-' :: (two mo ++ '-' :: (two d ++ 'T' :: tstr))) =
      some ⟨toMicros y mo d h mi s us, off⟩ := by
  have hd100 : d < 100 := lt_of_le_of_lt hd (lt_of_le_of_lt (daysInMonth_le31 y mo) (by norm_num))
  have ey : digitsVal [dchar (y / 1000), dchar (y / 100 % 10), dchar (y / 10 % 10),
      dchar (y % 10)] = y := digitsVal_four_digits y hy
  have emo : digitVal (dchar (mo / 10)) * 10 + digitVal (dchar (mo % 10)) = mo := by
    rw [dchar_val _ (by omega), dchar_val _ (by omega)]
    omega
  have ed : digitVal (dchar (d / 10)) * 10 + digitVal (dchar (d % 10)) = d := by
    rw [dchar_val _ (by omega), dchar_val _ (by omega)]
    omega
  show fromisoformat (dchar (y / 1000) :: dchar (y / 100 % 10) :: dchar (y / 10 % 10) ::
      dchar (y % 10) :: '-' :: dchar (mo / 10) :: dchar (mo % 10) :: '-' :: dchar (d / 10) ::
      dchar (d % 10) :: 'T' :: tstr) = some ⟨toMicros y mo d h mi s us, off⟩
  simp only [fromisoformat]
  rw [if_pos ⟨dchar_isDigit _ (by omega), dchar_isDigit _ (by omega), dchar_isDigit _ (by omega),
    dchar_isDigit _ (by omega), dchar_isDigit _ (by omega), dchar_isDigit _ (by omega),
    dchar_isDigit _ (by omega), dchar_isDigit _ (by omega)⟩]
  rw [ht]
  dsimp only
  rw [ey, emo, ed]
  rw [if_pos ⟨hy1, hmo1, hmo, hd1, hd, hh, hmi, hs, hoff⟩]

theorem ljust_trunc (frac : List Nat) :
    pyLjust 6 '0' ((frac.map dchar).take 6) = (truncPadDigits frac).map dchar := by
  simp only [pyLjust, truncPadDigits, List.map_append, List.map_take, List.map_replicate,
    List.length_take, List.length_map]
  rfl

theorem truncPad_length (frac : List Nat) : (truncPadDigits frac).length = 6 := by
  simp only [truncPadDigits, List.length_append, List.length_take, List.length_replicate]
  omega

theorem truncPad_digits (frac : List Nat) (h : ∀ x ∈ frac, x < 10) :
    ∀ x ∈ truncPadDigits frac, x < 10 := by
  intro x hx
  rcases List.mem_append.mp hx with h1 | h1
  · exact h x (List.mem_of_mem_take h1)
  · rw [List.eq_of_mem_replicate h1]
    omega

theorem truncPad_idem (frac : List Nat) : truncPadDigits (truncPadDigits frac) = truncPadDigits frac := by
  have h6 := truncPad_length frac
  simp [truncPadDigits, List.take_of_length_le (le_of_eq h6), h6]

/-- `graph_primary` depends on its input only through the `Z`-replaced form. -/
theorem graph_primary_ext (s1 s2 : List Char)
    (hrep : pyReplaceChar 'Z' plus0000 s1 = pyReplaceChar 'Z' plus0000 s2) :
    graph_primary s1 = graph_primary s2 := by
  unfold graph_primary
  rw [hrep]

theorem graph_primary_render_plus (y mo d h mi s oh om : Nat) (frac : List Nat)
    (hy1 : 1 ≤ y) (hy : y < 10000) (hmo1 : 1 ≤ mo) (hmo : mo ≤ 12) (hd1 : 1 ≤ d)
    (hd : d ≤ daysInMonth y mo) (hh : h ≤ 23) (hmi : mi ≤ 59) (hs : s ≤ 59)
    (hoh : oh ≤ 23) (hom : om ≤ 59) (hfr : ∀ x ∈ frac, x < 10) :
    graph_primary (renderBase y mo d h mi s ++ renderFrac frac ++ '+' :: (two oh ++ ':' :: two om)) =
      some ⟨toMicros y mo d h mi s (digitsVal ((truncPadDigits frac).map dchar)),
        some (((oh * 3600 + om * 60) * 1000000 : Nat) : Int)⟩ := by
  have hd100 : d < 100 := by
    have := daysInMonth_le31 y mo
    omega
  have hbase := base_chars y mo d h mi s hy (by omega) hd100 (by omega) (by omega) (by omega)
  have htz := tz_tail_chars oh om (by omega) (by omega)
  have hfd := map_dchar_all_digits frac hfr
  have hZfrac : 'Z' ∉ renderFrac frac := by
    unfold renderFrac
    split
    · exact List.not_mem_nil 'Z'
    · intro hm
      rcases List.mem_cons.mp hm with e | h2
      · exact absurd e (by decide)
      · exact absurd (hfd 'Z' h2) (by decide)
  have hZ : 'Z' ∉ renderBase y mo d h mi s ++ renderFrac frac ++ '+' :: (two oh ++ ':' :: two om) := by
    intro hm
    rcases List.mem_append.mp hm with h1 | h1
    · rcases List.mem_append.mp h1 with h2 | h2
      · exact absurd (hbase 'Z' h2) (by decide)
      · exact hZfrac h2
    · rcases List.mem_cons.mp h1 with e | h2
      · exact absurd e (by decide)
      · exact absurd (htz 'Z' h2) (by decide)
  have hoffv : ((some (((oh * 3600 + om * 60) * 1000000 : Nat) : Int)).getD 0).natAbs <
      86400000000 := by
    simp only [Option.getD_some, Int.natAbs_ofNat]
    omega
  unfold graph_primary
  rw [pyReplaceChar_of_not_mem _ _ _ hZ]
  by_cases hfe : frac = []
  · subst hfe
    have hrf : renderFrac [] = ([] : List Char) := rfl
    rw [hrf, List.append_nil]
    have hdot : '.' ∉ renderBase y mo d h mi s ++ '+' :: (two oh ++ ':' :: two om) := by
      intro hm
      rcases List.mem_append.mp hm with h1 | h1
      · exact absurd (hbase '.' h1) (by decide)
      · rcases List.mem_cons.mp h1 with e | h2
        · exact absurd e (by decide)
        · exact absurd (htz '.' h2) (by decide)
    rw [if_neg (fun hc => hdot hc.1)]
    have hshape : renderBase y mo d h mi s ++ '+' :: (two oh ++ ':' :: two om) =
        four y ++ '-' :: (two mo ++ '-' :: (two d ++ 'T' :: (two h ++ ':' :: (two mi ++ ':' ::
          (two s ++ '+' :: (two oh ++ ':' :: two om)))))) := by
      simp [renderBase, List.append_assoc]
    rw [hshape, fromisoformat_render y mo d _ h mi s 0 _ hy1 hy hmo1 hmo hd1 hd hh hmi hs hoffv
      (ptime_nofrac_plus h mi s oh om (by omega) (by omega) (by omega) (by omega) (by omega))]
    rw [show digitsVal ((truncPadDigits ([] : List Nat)).map dchar) = 0 from by decide]
  · have hrf : renderFrac frac = '.' :: frac.map dchar := by
      rw [renderFrac, if_neg hfe]
    rw [hrf]
    have hshape1 : renderBase y mo d h mi s ++ ('.' :: frac.map dchar) ++
        '+' :: (two oh ++ ':' :: two om) =
        (renderBase y mo d h mi s ++ '.' :: frac.map dchar) ++
          '+' :: (two oh ++ ':' :: two om) := by
      simp [List.append_assoc]
    rw [hshape1]
    have hdotmem : '.' ∈ (renderBase y mo d h mi s ++ '.' :: frac.map dchar) ++
        '+' :: (two oh ++ ':' :: two om) :=
      List.mem_append.mpr (Or.inl (List.mem_append.mpr (Or.inr (List.mem_cons_self _ _))))
    have hplusmem : '+' ∈ (renderBase y mo d h mi s ++ '.' :: frac.map dchar) ++
        '+' :: (two oh ++ ':' :: two om) :=
      List.mem_append.mpr (Or.inr (List.mem_cons_self _ _))
    rw [if_pos ⟨hdotmem, hplusmem⟩]
    have hplus_tz : '+' ∉ two oh ++ ':' :: two om := fun hm => absurd (htz '+' hm) (by decide)
    rw [rsplitLast_append_cons '+' _ _ hplus_tz]
    dsimp only
    rw [if_pos (List.mem_append.mpr (Or.inr (List.mem_cons_self '.' (frac.map dchar))))]
    have hdot_base : '.' ∉ renderBase y mo d h mi s := fun hm => absurd (hbase '.' hm) (by decide)
    rw [splitFirst_append_cons '.' _ _ hdot_base]
    dsimp only
    have hdot_frac : '.' ∉ frac.map dchar := fun hm => absurd (hfd '.' hm) (by decide)
    rw [if_neg hdot_frac]
    rw [ljust_trunc frac]
    have hshape2 : (renderBase y mo d h mi s ++ '.' :: (truncPadDigits frac).map dchar) ++
        '+' :: (two oh ++ ':' :: two om) =
        four y ++ '-' :: (two mo ++ '-' :: (two d ++ 'T' :: (two h ++ ':' :: (two mi ++ ':' ::
          (two s ++ '.' :: ((truncPadDigits frac).map dchar ++
            '+' :: (two oh ++ ':' :: two om))))))) := by
      simp [renderBase, List.append_assoc]
    have hlen6 : ((truncPadDigits frac).map dchar).length = 6 := by
      rw [List.length_map, truncPad_length]
    have hdig6 := map_dchar_all_digits (truncPadDigits frac) (truncPad_digits frac hfr)
    rw [hshape2, fromisoformat_render y mo d _ h mi s _ _ hy1 hy hmo1 hmo hd1 hd hh hmi hs hoffv
      (ptime_frac6_plus h mi s oh om (by omega) (by omega) (by omega) (by omega) (by omega)
        ((truncPadDigits frac).map dchar) hlen6 hdig6)]

theorem renderTs_ne_nil (y mo d h mi s : Nat) (frac : List Nat) (tz : TzSuffix) :
    renderTs y mo d h mi s frac tz ≠ [] := by
  simp [renderTs, renderBase, four]

/-- A `Z`-suffixed rendering normalises, under the `Z → +00:00` replacement,
to the same cleaned string as an explicit `+00:00` rendering. -/
theorem graph_primary_zulu_eq_plus00 (y mo d h mi s : Nat) (frac : List Nat)
    (hy : y < 10000) (hmo : mo < 100) (hd100 : d < 100) (hh : h < 100) (hmi : mi < 100)
    (hs : s < 100) (hfr : ∀ x ∈ frac, x < 10) :
    graph_primary (renderTs y mo d h mi s frac TzSuffix.zulu) =
      graph_primary (renderBase y mo d h mi s ++ renderFrac frac ++ '+' :: (two 0 ++ ':' :: two 0)) := by
  have hbase := base_chars y mo d h mi s hy hmo hd100 hh hmi hs
  have hfd := map_dchar_all_digits frac hfr
  have hZfrac : 'Z' ∉ renderFrac frac := by
    unfold renderFrac
    split
    · exact List.not_mem_nil 'Z'
    · intro hm
      rcases List.mem_cons.mp hm with e | h2
      · exact absurd e (by decide)
      · exact absurd (hfd 'Z' h2) (by decide)
  have hZpre : 'Z' ∉ renderBase y mo d h mi s ++ renderFrac frac := by
    intro hm
    rcases List.mem_append.mp hm with h1 | h1
    · exact absurd (hbase 'Z' h1) (by decide)
    · exact hZfrac h1
  have hZrhs : 'Z' ∉ renderBase y mo d h mi s ++ renderFrac frac ++
      '+' :: (two 0 ++ ':' :: two 0) := by
    intro hm
    rcases List.mem_append.mp hm with h1 | h1
    · exact hZpre h1
    · rcases List.mem_cons.mp h1 with e | h2
      · exact absurd e (by decide)
      · exact absurd (tz_tail_chars 0 0 (by omega) (by omega) 'Z' h2) (by decide)
  apply graph_primary_ext
  show pyReplaceChar 'Z' plus0000 ((renderBase y mo d h mi s ++ renderFrac frac) ++ ['Z']) = _
  rw [pyReplaceChar_append_single 'Z' plus0000 _ hZpre,
    pyReplaceChar_of_not_mem _ _ _ hZrhs,
    show plus0000 = '+' :: (two 0 ++ ':' :: two 0) from by decide]

/-- Claim C3, amended to `Z`-suffixed and positive-offset inputs: for every
valid timestamp rendering with 0-9 fractional digits, the normalizer returns
the offset-aware instant with the fraction truncated to 6 digits
(right-padded with zeros when fewer), equal to what it returns on the same
string with the fraction already truncated/padded to exactly 6 digits.
(For negative offsets the truncation pre-processing is skipped and the claim
fails — see the counterexample.) -/
theorem claimC3_amended_normalize (y mo d h mi s oh om : Nat) (frac : List Nat) (tz : TzSuffix)
    (hy1 : 1 ≤ y) (hy : y < 10000) (hmo1 : 1 ≤ mo) (hmo : mo ≤ 12) (hd1 : 1 ≤ d)
    (hd : d ≤ daysInMonth y mo) (hh : h ≤ 23) (hmi : mi ≤ 59) (hs : s ≤ 59)
    (hoh : oh ≤ 23) (hom : om ≤ 59) (hfr : ∀ x ∈ frac, x < 10) (hfl : frac.length ≤ 9)
    (htz : tz = TzSuffix.zulu ∨ tz = TzSuffix.plus oh om) :
    parse_graph_datetime (renderTs y mo d h mi s frac tz) =
      some ⟨toMicros y mo d h mi s (digitsVal ((truncPadDigits frac).map dchar)),
        some (tzOffVal tz)⟩ ∧
    parse_graph_datetime (renderTs y mo d h mi s (truncPadDigits frac) tz) =
      some ⟨toMicros y mo d h mi s (digitsVal ((truncPadDigits frac).map dchar)),
        some (tzOffVal tz)⟩ := by
  have hd100 : d < 100 := by
    have := daysInMonth_le31 y mo
    omega
  have main : ∀ (fr2 : List Nat), (∀ x ∈ fr2, x < 10) →
      parse_graph_datetime (renderTs y mo d h mi s fr2 tz) =
        some ⟨toMicros y mo d h mi s (digitsVal ((truncPadDigits fr2).map dchar)),
          some (tzOffVal tz)⟩ := by
    intro fr2 hfr2
    have hprim : graph_primary (renderTs y mo d h mi s fr2 tz) =
        some ⟨toMicros y mo d h mi s (digitsVal ((truncPadDigits fr2).map dchar)),
          some (tzOffVal tz)⟩ := by
      rcases htz with rfl | rfl
      · rw [graph_primary_zulu_eq_plus00 y mo d h mi s fr2 hy (by omega) hd100 (by omega)
          (by omega) (by omega) hfr2,
          graph_primary_render_plus y mo d h mi s 0 0 fr2 hy1 hy hmo1 hmo hd1 hd hh hmi hs
            (by omega) (by omega) hfr2]
        norm_num [tzOffVal]
      · exact graph_primary_render_plus y mo d h mi s oh om fr2 hy1 hy hmo1 hmo hd1 hd hh hmi hs
          hoh hom hfr2
    unfold parse_graph_datetime
    rw [if_neg (renderTs_ne_nil y mo d h mi s fr2 tz), hprim]
  refine ⟨main frac hfr, ?_⟩
  rw [main (truncPadDigits frac) (truncPad_digits frac hfr), truncPad_idem]

/-- Witness for the amended C3: a 7-digit fraction with a `+05:30` offset is
truncated to 6 digits, and the all-ready-6-digit rendering parses to the same
offset-aware instant. -/
theorem claimC3_amended_normalize_witness :
    parse_graph_datetime (renderTs 2025 1 2 9 30 0 [1, 2, 3, 4, 5, 6, 7] (TzSuffix.plus 5 30)) =
      some ⟨toMicros 2025 1 2 9 30 0 (digitsVal ((truncPadDigits [1, 2, 3, 4, 5, 6, 7]).map dchar)),
        some (tzOffVal (TzSuffix.plus 5 30))⟩ ∧
    parse_graph_datetime (renderTs 2025 1 2 9 30 0 (truncPadDigits [1, 2, 3, 4, 5, 6, 7])
        (TzSuffix.plus 5 30)) =
      some ⟨toMicros 2025 1 2 9 30 0 (digitsVal ((truncPadDigits [1, 2, 3, 4, 5, 6, 7]).map dchar)),
        some (tzOffVal (TzSuffix.plus 5 30))⟩ :=
  claimC3_amended_normalize 2025 1 2 9 30 0 5 30 [1, 2, 3, 4, 5, 6, 7] (TzSuffix.plus 5 30)
    (by decide) (by decide) (by decide) (by decide) (by decide) (by decide) (by decide)
    (by decide) (by decide) (by decide) (by decide) (by decide) (by decide) (Or.inr rfl)

/-- Counterexample to C3 as stated for negative offsets: on
`2025-01-01T10:00:00.12-05:00` (two fractional digits, offset −05:00) the
truncation pre-processing is skipped (no `'+'` in the string), the primary
parse fails (a 2-digit fraction is not a valid `fromisoformat` input), and
the recovery path drops both the fraction and the offset, yielding
2025-01-01T10:00:00+00:00 — while the same string with the fraction truncated
to 6 digits parses to 2025-01-01T10:00:00.120000−05:00.  The two instants
differ by five hours. -/
theorem claimC3_counterexample :
    renderTs 2025 1 1 10 0 0 [1, 2] (TzSuffix.minus 5 0) = cs "2025-01-01T10:00:00.12-05:00" ∧
    parse_graph_datetime (cs "2025-01-01T10:00:00.12-05:00") =
      some ⟨toMicros 2025 1 1 10 0 0 0, some 0⟩ ∧
    parse_graph_datetime (cs "2025-01-01T10:00:00.120000-05:00") =
      some ⟨toMicros 2025 1 1 10 0 0 120000, some (-18000000000)⟩ ∧
    instantOf ⟨toMicros 2025 1 1 10 0 0 0, some 0⟩ ≠
      instantOf ⟨toMicros 2025 1 1 10 0 0 120000, some (-18000000000)⟩ := by
  exact ⟨by decide, by decide, by decide, by decide⟩

theorem sanity_daysFromCivil : daysFromCivil 1970 1 1 = 0 ∧ daysFromCivil 2025 1 2 = 20090 ∧ civilFromDays 20090 = (2025, 1, 2) := by
  refine ⟨by decide, by decide, by decide⟩

theorem sanity_fmt : fmtTime12 ⟨toMicros 2025 1 2 9 30 0 0, some 0⟩ = cs "09:30 AM" ∧ fmtTime12 ⟨toMicros 2025 1 2 13 5 0 0, some 0⟩ = cs "01:05 PM" ∧ fmtTime12 ⟨toMicros 2025 1 2 0 0 0 0, some 0⟩ = cs "12:00 AM" := by
  refine ⟨by decide, by decide, by decide⟩

theorem sanity_td : strTimedelta 3600000000 = cs "1:00:00" ∧ strTimedelta 5400000000 = cs "1:30:00" := by
  refine ⟨by decide, by decide⟩

theorem sanity_query : (fetch_window_strings 7200000000 (toMicros 2025 6 15 10 0 0 0)).1 = cs "2025-06-15T00:00:00.000000Z" := by decide

theorem sanity_select :
    selectAppointment 0 ⟨toMicros 2025 1 2 10 0 0 0, some 0⟩
      [⟨.bare (cs "2025-01-02T09:30:00Z"), .bare (cs "2025-01-02T10:30:00Z"), some (cs "A"), none⟩,
       ⟨.bare (cs "2025-01-02T11:00:00Z"), .bare (cs "2025-01-02T12:00:00Z"), some (cs "B"), none⟩]
    = some (bookingOf (cs "A - Booking") ⟨toMicros 2025 1 2 9 30 0 0, some 0⟩ ⟨toMicros 2025 1 2 10 30 0 0, some 0⟩ true) := by decide

theorem sanity_select2 :
    selectAppointment 0 ⟨toMicros 2025 1 2 9 0 0 0, some 0⟩
      [⟨.bare (cs "2025-01-02T09:30:00Z"), .bare (cs "2025-01-02T10:30:00Z"), some (cs "A"), none⟩,
       ⟨.bare (cs "2025-01-02T11:00:00Z"), .bare (cs "2025-01-02T12:00:00Z"), some (cs "B"), none⟩]
    = some (bookingOf (cs "A - Booking") ⟨toMicros 2025 1 2 9 30 0 0, some 0⟩ ⟨toMicros 2025 1 2 10 30 0 0, some 0⟩ false) := by decide

theorem sanity_crossday :
    selectAppointment 0 ⟨toMicros 2025 1 2 12 0 0 0, some 0⟩
      [⟨.bare (cs "2025-01-01T23:00:00Z"), .bare (cs "2025-01-02T23:00:00Z"), some (cs "X"), none⟩]
    = some (bookingOf (cs "X - Booking") ⟨toMicros 2025 1 1 23 0 0 0, some 0⟩ ⟨toMicros 2025 1 2 23 0 0 0, some 0⟩ true) := by decide

theorem sanity_parse1 : parse_graph_datetime (cs "2025-01-02T09:30:00Z") = some ⟨toMicros 2025 1 2 9 30 0 0, some 0⟩ := by decide

theorem sanity_parse2 : parse_graph_datetime (cs "2025-01-02T09:30:00.1234567+05:30") = some ⟨toMicros 2025 1 2 9 30 0 123456, some ((5 * 3600 + 30 * 60) * 1000000)⟩ := by decide

theorem sanity_parse3 : parse_graph_datetime (cs "2025-01-01T10:00:00.12-05:00") = some ⟨toMicros 2025 1 1 10 0 0 0, some 0⟩ := by decide

theorem sanity_parse4 : parse_graph_datetime (cs "garbage") = none := by decide

theorem sanity_parse5 : parse_graph_datetime (cs "2025-01-01T10:00:00.120000-05:00") = some ⟨toMicros 2025 1 1 10 0 0 120000, some (-(5 * 3600 * 1000000 : Int))⟩ := by decide
